import Mathlib

/-!
Verification of the day-simulation core of the Backtest_Engine repository.

The Python source is shallowly embedded: prices and P&L amounts are exact
rationals (`ℚ`), timestamps and times-of-day are minutes encoded as `ℕ`,
Python dicts keyed by strings are association lists in insertion order, and
the Polars data frames served by the external options-data provider are
plain lists of OHLC rows.  Python's `round(x, 2)` (round-half-to-even at
two decimals) is modelled exactly on `ℚ` by `round2`.
-/

namespace Backtest

/-- Python's `round` to an integer: round half to even (banker's rounding),
modelled on exact rationals. -/
def pyRound (q : ℚ) : ℤ :=
  let f : ℤ := ⌊q⌋
  let r : ℚ := q - f
  if r < 1/2 then f
  else if r > 1/2 then f + 1
  else if Even f then f else f + 1

/-- Python's `round(x, 2)`: round half to even at two decimal places. -/
def round2 (q : ℚ) : ℚ := (pyRound (q * 100) : ℚ) / 100

/-- A price that lies on the two-decimal (paisa) grid. -/
def CentGrid (q : ℚ) : Prop := ∃ n : ℤ, q * 100 = n

theorem pyRound_intCast (n : ℤ) : pyRound (n : ℚ) = n := by
  simp [pyRound]

theorem round2_of_centGrid {q : ℚ} (h : CentGrid q) : round2 q = q := by
  obtain ⟨n, hn⟩ := h
  rw [round2, hn, pyRound_intCast, ← hn]
  field_simp

theorem centGrid_mul_int {q : ℚ} (h : CentGrid q) (k : ℤ) : CentGrid (q * k) := by
  obtain ⟨n, hn⟩ := h
  exact ⟨n * k, by push_cast; rw [mul_right_comm, hn]⟩

theorem centGrid_sub {a b : ℚ} (ha : CentGrid a) (hb : CentGrid b) :
    CentGrid (a - b) := by
  obtain ⟨m, hm⟩ := ha
  obtain ⟨n, hn⟩ := hb
  exact ⟨m - n, by push_cast; rw [sub_mul, hm, hn]⟩

/-- Python's `str.upper()` (ASCII data in this code base). -/
def pyUpper (s : String) : String := ⟨s.data.map Char.toUpper⟩

/-- Python's `needle in haystack` substring test. -/
def pyIn (needle hay : String) : Bool :=
  hay.toList.tails.any (fun t => needle.toList.isPrefixOf t)

/-- One OHLC row as produced by the price-data provider (already rounded to
two decimals by `update_all_ltps` before exit checks read it). -/
structure OHLC where
  Open : ℚ
  High : ℚ
  Low : ℚ
  Close : ℚ
deriving Repr, DecidableEq

/-- Column access `row[name]` on an OHLC row.  The source only ever indexes
with one of the four column names; any other key would raise in Python. -/
def OHLC.get (o : OHLC) (field : String) : ℚ :=
  if field = "Open" then o.Open
  else if field = "High" then o.High
  else if field = "Low" then o.Low
  else o.Close

/-- Truthiness of an optional string field fetched with
`leg_config.get(key, False)` and used as a boolean: a missing key and the
empty string are both falsy in Python. -/
def strTruthy : Option String → Bool
  | none => false
  | some s => !s.data.isEmpty

/-- The per-leg configuration dictionary (`leg_dict` / `leg_config` /
`order` in the source).  Only the keys read by the day-simulation core are
modelled.  Keys fetched with differing call-site defaults, compared against
`None`, or tested for truthiness are `Option`-valued; keys always fetched
with a fixed default are stored with that default applied. -/
structure LegDict where
  unique_leg_id : Option String := none
  leg_id : Option String := none
  /-- `stoploss_toggle`, default `False`. -/
  stoploss_toggle : Bool := false
  /-- `stoploss_type`; defaults differ per call site (`"Points"` in
  `PNLManager`, `"Percentage"` in `EntryStrategy._calculate_sl_target`). -/
  stoploss_type : Option String := none
  stoploss_value : ℚ := 0
  target_toggle : Bool := false
  target_value : ℚ := 0
  rentry_sl_toggle : Bool := false
  rentry_tgt_toggle : Bool := false
  /-- `total_sl_rentry`; the day driver compares it with `None` before
  using it, so the key is `Option`-valued. -/
  total_sl_rentry : Option ℤ := none
  total_tgt_rentry : Option ℤ := none
  leg_hopping_count_sl : ℤ := 0
  leg_hopping_count_tgt : ℤ := 0
  leg_hopping_count_next_leg : ℤ := 0
  leg_tobe_executed_on_sl : Option String := none
  leg_tobe_executed_on_target : Option String := none
  next_lazy_leg_to_be_executed : Option String := none
  sm_toggle : Bool := false
  range_breakout_toggle : Bool := false
  rolling_straddle_toggle : Bool := false
  strike_type : Option String := none
  spread : ℚ := 0
  option_type : Option String := none
  /-- `range_breakout_threshold_time`, a `"HH:MM:SS"` string in the source,
  modelled as minutes since midnight; the `'15:30:00'` default is `930`. -/
  range_breakout_threshold_time : Option ℕ := none
  range_breakout_of : Option String := none
  range_compare_section : Option String := none
  position : Option String := none
deriving Repr, DecidableEq

/-- `Position` (Managers/pnl_manager.py).  Timestamps are minutes (`ℕ`);
the `OHLCV_data` row dict written by `update_all_ltps` carries the rounded
OHLC values the exit checks read.  Fields the claims never touch
(`expiry`, `sd_level`, `trailing_sl`) are omitted. -/
structure Position where
  position_id : String
  leg_id : String
  unique_leg_id : String
  trading_symbol : String
  instrument_type : String
  strike : ℚ
  entry_timestamp : ℕ
  entry_price : ℚ
  quantity : ℤ
  position_type : String
  leg_dict : LegDict
  current_ltp : ℚ := 0
  unrealized_pnl : ℚ := 0
  stop_loss : Option ℚ := none
  target_price : Option ℚ := none
  is_active : Bool := true
  stop_loss_compare_type : String := ""
  target_compare_type : String := ""
  exit_timestamp : Option ℕ := none
  exit_price : Option ℚ := none
  exit_reason : Option String := none
  realized_pnl : ℚ := 0
  OHLCV_data : OHLC := ⟨0, 0, 0, 0⟩
deriving Repr, DecidableEq

/-- `Position.calculate_pnl`. -/
def Position.calculate_pnl (p : Position) (ltp : ℚ) : ℚ :=
  if pyUpper p.position_type = "BUY" then
    round2 ((ltp - p.entry_price) * p.quantity)
  else
    round2 ((p.entry_price - ltp) * p.quantity)

/-- `Position.update_ltp`. -/
def Position.update_ltp (p : Position) (ltp : ℚ) : Position :=
  { p with
    current_ltp := ltp
    unrealized_pnl := if p.is_active then p.calculate_pnl ltp else p.unrealized_pnl }

/-- `Position.close_position`. -/
def Position.close_position (p : Position) (exit_timestamp : ℕ)
    (exit_price : ℚ) (exit_reason : String) : Position :=
  { p with
    is_active := false
    current_ltp := exit_price
    exit_timestamp := some exit_timestamp
    exit_price := some exit_price
    exit_reason := some exit_reason
    realized_pnl := p.calculate_pnl exit_price
    unrealized_pnl := 0 }

/-- One row of the audit order book
(`{"Timestamp","Ticker","Order_side","Price","Summary"}`). -/
structure OrderBookEntry where
  Timestamp : ℕ
  Ticker : String
  Order_side : String
  Price : Option ℚ
  Summary : String
deriving Repr, DecidableEq

/-- `PNLManager` state.  `active_positions` is a Python dict keyed by
`position_id`, modelled as the insertion-ordered list of its values (keys
are unique by construction).  The `pnl_history` snapshots and
`charges_params` are not touched by the claims and are omitted. -/
structure PNLManager where
  active_positions : List Position := []
  closed_positions : List Position := []
  total_realized_pnl : ℚ := 0
  total_unrealized_pnl : ℚ := 0
  position_counter : ℕ := 0
  order_book : List OrderBookEntry := []
deriving Repr, DecidableEq

/-- `PNLManager._calculate_stop_loss`. -/
def PNLManager.calculate_stop_loss (entry_price : ℚ) (leg_dict : LegDict)
    (position_type : String) : Option ℚ :=
  if !leg_dict.stoploss_toggle then none
  else
    let stoploss_type := leg_dict.stoploss_type.getD "Points"
    let stoploss_value := leg_dict.stoploss_value
    if stoploss_value = 0 then none
    else if stoploss_type = "Points" then
      if pyUpper position_type = "BUY" then some (entry_price - stoploss_value)
      else some (entry_price + stoploss_value)
    else
      if pyUpper position_type = "BUY" then some (entry_price * (1 - stoploss_value))
      else some (entry_price * (1 + stoploss_value))

/-- `PNLManager._calculate_target_price`. -/
def PNLManager.calculate_target_price (entry_price : ℚ) (leg_dict : LegDict)
    (position_type : String) : Option ℚ :=
  if !leg_dict.target_toggle then none
  else
    let target_value := leg_dict.target_value
    if target_value = 0 then none
    else if pyUpper position_type = "BUY" then some (entry_price * (1 + target_value))
    else some (entry_price * (1 - target_value))

/-- `PNLManager.record_order`. -/
def PNLManager.record_order (m : PNLManager) (timestamp : ℕ) (ticker : String)
    (order_side : String) (price : Option ℚ) (summary : String) : PNLManager :=
  { m with order_book := m.order_book ++
      [{ Timestamp := timestamp, Ticker := ticker, Order_side := order_side,
         Price := price.map round2, Summary := summary }] }

/-- `PNLManager._update_total_unrealized_pnl`. -/
def PNLManager.update_total_unrealized_pnl (m : PNLManager) : PNLManager :=
  { m with total_unrealized_pnl := (m.active_positions.map (·.unrealized_pnl)).sum }

/-- `PNLManager.create_position`.  Passing `sl_value = None` together with a
disabled stop-loss toggle would make the Python `round(None, 2)` raise; the
day driver always passes concrete numbers, and the embedding keeps the
defined branch (`Option.map round2`). -/
def PNLManager.create_position (m : PNLManager) (leg_id unique_leg_id : String)
    (trading_symbol instrument_type : String) (strike : ℚ)
    (entry_timestamp : ℕ) (entry_price : ℚ) (quantity : ℤ)
    (position_type : String) (leg_dict : LegDict)
    (stop_loss_compare_type : String := "") (target_compare_type : String := "")
    (OHLCV_data : OHLC := ⟨0, 0, 0, 0⟩)
    (sl_value : Option ℚ := none) (target_price : Option ℚ := none) :
    Position × PNLManager :=
  let counter := m.position_counter + 1
  let position_id := unique_leg_id ++ "_" ++ toString counter
  let stop_loss := match sl_value with
    | some v => some (round2 v)
    | none => (PNLManager.calculate_stop_loss entry_price leg_dict position_type).map round2
  let target_price' := match target_price with
    | some v => some (round2 v)
    | none => (PNLManager.calculate_target_price entry_price leg_dict position_type).map round2
  let position : Position :=
    { position_id := position_id, leg_id := leg_id, unique_leg_id := unique_leg_id,
      trading_symbol := trading_symbol, instrument_type := instrument_type,
      strike := strike, entry_timestamp := entry_timestamp,
      entry_price := entry_price, quantity := quantity,
      position_type := position_type, leg_dict := leg_dict,
      current_ltp := entry_price, stop_loss := stop_loss,
      target_price := target_price',
      stop_loss_compare_type := stop_loss_compare_type,
      target_compare_type := target_compare_type, OHLCV_data := OHLCV_data }
  let m' := { m with position_counter := counter,
                     active_positions := m.active_positions ++ [position] }
  let m'' := m'.record_order entry_timestamp trading_symbol position_type
    (some entry_price)
    ("Executed entry of leg " ++ leg_id)
  (position, m'')

/-- `PNLManager.close_position`.  Dict deletion removes the (unique) entry
with the given key; on the list-of-values model this is a filter. -/
def PNLManager.close_position (m : PNLManager) (position_id : String)
    (exit_timestamp : ℕ) (exit_price : ℚ) (exit_reason : String) :
    Option Position × PNLManager :=
  match m.active_positions.find? (fun p => p.position_id = position_id) with
  | none => (none, m)
  | some p =>
    let p' := p.close_position exit_timestamp exit_price exit_reason
    let m' := { m with
      closed_positions := m.closed_positions ++ [p'],
      active_positions := m.active_positions.filter
        (fun q => q.position_id ≠ position_id),
      total_realized_pnl := m.total_realized_pnl + p'.realized_pnl }
    let m'' := m'.update_total_unrealized_pnl
    let m''' := m''.record_order exit_timestamp p.trading_symbol
      (if p.position_type = "Sell" then "Buy" else "Sell")
      (some exit_price) (p'.exit_reason.getD "")
    (some p', m''')

/-- `PNLManager.update_position_ltp`. -/
def PNLManager.update_position_ltp (m : PNLManager) (position_id : String)
    (ltp : ℚ) : PNLManager :=
  if m.active_positions.any (fun p => p.position_id = position_id) then
    let updated := m.active_positions.map
      (fun p => if p.position_id = position_id then p.update_ltp ltp else p)
    ({ m with active_positions := updated }).update_total_unrealized_pnl
  else m

/-- `PNLManager.update_all_ltps`: for every active position the provider's
latest row at or before the timestamp is fetched and the close becomes the
new LTP.  The Polars lookup through `options_extractor_con` is external
data access and is abstracted as an oracle from trading symbol to the
(already rounded) OHLC row; the mirroring into `TRADE_DICT` is omitted. -/
def PNLManager.update_all_ltps (m : PNLManager) (rowOf : String → OHLC) :
    PNLManager :=
  let updated := m.active_positions.map
    (fun p =>
      let row := rowOf p.trading_symbol
      { p.update_ltp row.Close with OHLCV_data := row })
  ({ m with active_positions := updated }).update_total_unrealized_pnl

/-!
Exit evaluator (Managers/exit_manager.py).  The human-readable reason
strings interpolate Python float formatting of the trigger levels; the
embedding keeps the discriminating prefix and leg id (the only parts any
consumer inspects — the day driver classifies exits by the substrings
`"SL"` and `"Target"`).
-/

/-- `StopLossExit.check_exit_condition`.  A `None` stop-loss level would
raise on comparison in Python; it cannot occur for a toggle-enabled leg
with a non-zero value, and the embedding reads it with default `0`. -/
def StopLossExit.check (p : Position) : Bool × String :=
  let leg_dict := p.leg_dict
  if !leg_dict.stoploss_toggle then (false, "")
  else if p.entry_price = 0 ∨ leg_dict.stoploss_value = 0 then (false, "")
  else
    let ohlc := p.OHLCV_data
    let sl_comparing_value :=
      if p.stop_loss_compare_type = "" then
        if pyUpper p.position_type = "BUY" then ohlc.Low else ohlc.High
      else ohlc.get p.stop_loss_compare_type
    let reason := "SL Triggered Exit for leg " ++ leg_dict.unique_leg_id.getD ""
    if pyUpper p.position_type = "BUY" then
      if sl_comparing_value ≤ p.stop_loss.getD 0 then (true, reason) else (false, "")
    else
      if sl_comparing_value ≥ p.stop_loss.getD 0 then (true, reason) else (false, "")

/-- `TargetProfitExit.check_exit_condition`. -/
def TargetProfitExit.check (p : Position) : Bool × String :=
  let leg_dict := p.leg_dict
  if !leg_dict.target_toggle then (false, "")
  else if p.entry_price = 0 ∨ leg_dict.target_value = 0 then (false, "")
  else
    let ohlc := p.OHLCV_data
    let target_comparing_value :=
      if p.target_compare_type = "" then
        if pyUpper p.position_type = "BUY" then ohlc.High else ohlc.Low
      else ohlc.get p.target_compare_type
    let reason := "Target Triggered Exit for leg " ++ leg_dict.unique_leg_id.getD ""
    if pyUpper p.position_type = "BUY" then
      if target_comparing_value ≥ p.target_price.getD 0 then (true, reason) else (false, "")
    else
      if target_comparing_value ≤ p.target_price.getD 0 then (true, reason) else (false, "")

/-- `ExitManager.priority_order`: the fixed order in which `check_exit`
walks the strategies, short-circuiting on the first match. -/
def ExitManager.priority_order : List String :=
  ["STOPLOSS", "TARGET", "TRAILING", "TIME", "CONDITIONAL", "INDICATOR"]

/-- One iteration of the stop-loss pass of `DayProcessor.process_day`
(lines 298–305): if the snapshot position's stop-loss condition holds it
is closed at its stored stop-loss level with the stop-loss reason. -/
def slStep (t : ℕ) (acc : PNLManager) (p : Position) : PNLManager :=
  let res := StopLossExit.check p
  if res.1 then
    (acc.close_position p.position_id t (p.stop_loss.getD 0) res.2).2
  else acc

/-- The stop-loss pass of `DayProcessor.process_day` (lines 295–306): a
snapshot of the active positions is scanned, and every position whose
stop-loss condition holds is closed at its stored stop-loss level with the
stop-loss reason. -/
def slScan (m : PNLManager) (t : ℕ) : PNLManager :=
  m.active_positions.foldl (slStep t) m

/-- One iteration of the target pass (lines 308–315). -/
def targetStep (t : ℕ) (acc : PNLManager) (p : Position) : PNLManager :=
  let res := TargetProfitExit.check p
  if res.1 then
    (acc.close_position p.position_id t (p.target_price.getD 0) res.2).2
  else acc

/-- The target pass of `DayProcessor.process_day` (lines 307–315), run on a
fresh snapshot after the stop-loss pass. -/
def targetScan (m : PNLManager) (t : ℕ) : PNLManager :=
  m.active_positions.foldl (targetStep t) m

/-- The position-closing phase of one `process_day` timestamp iteration:
stop-loss scan first, then target scan. -/
def closingPhase (m : PNLManager) (t : ℕ) : PNLManager :=
  targetScan (slScan m t) t

/-! Ordered string-keyed dictionaries (Python `dict` values in insertion
order, keys unique by construction). -/

def dictGet {α : Type} : List (String × α) → String → Option α
  | [], _ => none
  | e :: tl, k => if e.1 = k then some e.2 else dictGet tl k

def dictModify {α : Type} (l : List (String × α)) (k : String) (f : α → α) :
    List (String × α) :=
  l.map (fun e => if e.1 = k then (e.1, f e.2) else e)

/-- Python dict assignment `d[k] = v`: replace in place if the key exists,
append otherwise. -/
def dictSet {α : Type} (l : List (String × α)) (k : String) (v : α) :
    List (String × α) :=
  if l.any (fun e => e.1 = k) then
    l.map (fun e => if e.1 = k then (k, v) else e)
  else l ++ [(k, v)]

theorem dictGet_dictModify {α : Type} (l : List (String × α)) (k k' : String)
    (f : α → α) :
    dictGet (dictModify l k f) k' =
      if k' = k then (dictGet l k').map f else dictGet l k' := by
  induction l with
  | nil => simp [dictGet, dictModify]
  | cons e tl ih =>
    simp only [dictModify, List.map_cons] at ih ⊢
    by_cases he : e.1 = k
    · by_cases hk : e.1 = k'
      · have hkk : k' = k := by rw [← hk, he]
        simp [dictGet, he, hk, hkk]
      · have hkk : ¬ k' = k := by
          intro h
          exact hk (by rw [he, h])
        have hkk' : ¬ k = k' := fun h => hkk h.symm
        simp [dictGet, he, hk, hkk, hkk'] at ih ⊢
        exact ih
    · by_cases hk : e.1 = k'
      · have hkk : ¬ k' = k := by
          intro h
          exact he (by rw [hk, h])
        simp [dictGet, he, hk, hkk]
      · simp [dictGet, he, hk] at ih ⊢
        exact ih

/-!
Order sequencer (Utilities/Order_Sequencer.py) and the re-entry /
leg-hopping step of `DayProcessor.process_day` (lines 318–397).
-/

/-- `d[hopping_type] -= 1` on a leg dict, with `hopping_type` one of the
counter keys the day driver passes.  A key that is absent or holds `None`
would raise in Python; the `Option` counters keep the defined branch. -/
def LegDict.decCounter (d : LegDict) (hopping_type : String) : LegDict :=
  if hopping_type = "total_sl_rentry" then
    { d with total_sl_rentry := d.total_sl_rentry.map (· - 1) }
  else if hopping_type = "total_tgt_rentry" then
    { d with total_tgt_rentry := d.total_tgt_rentry.map (· - 1) }
  else if hopping_type = "leg_hopping_count_sl" then
    { d with leg_hopping_count_sl := d.leg_hopping_count_sl - 1 }
  else if hopping_type = "leg_hopping_count_tgt" then
    { d with leg_hopping_count_tgt := d.leg_hopping_count_tgt - 1 }
  else if hopping_type = "leg_hopping_count_next_leg" then
    { d with leg_hopping_count_next_leg := d.leg_hopping_count_next_leg - 1 }
  else d

/-- `prev_executed_order.get(leg_to_fetch, "")` for the three hop-target
keys the day driver passes (a missing key yields `""`). -/
def LegDict.getLegRef (d : LegDict) (key : String) : String :=
  if key = "leg_tobe_executed_on_sl" then d.leg_tobe_executed_on_sl.getD ""
  else if key = "leg_tobe_executed_on_target" then d.leg_tobe_executed_on_target.getD ""
  else if key = "next_lazy_leg_to_be_executed" then d.next_lazy_leg_to_be_executed.getD ""
  else ""

/-- `OrderSequenceMapper` state.  `all_order_dict` is the merged
main-plus-lazy registry that `_get_order` and `hopping_count_manager`
read and mutate; the separate `main_orders` view drives only the initial
submission loop and is not needed by the claims. -/
structure SequencerState where
  all_order_dict : List (String × LegDict) := []
deriving Repr, DecidableEq

/-- `OrderSequenceMapper.hopping_count_manager`.  A `unique_leg_id` absent
from the registry would raise `KeyError` in Python; the embedding's
`dictModify` leaves the registry unchanged in that case. -/
def SequencerState.hopping_count_manager (s : SequencerState)
    (unique_leg_id hopping_type : String) : SequencerState :=
  if hopping_type ≠ "" then
    { s with all_order_dict :=
        dictModify s.all_order_dict unique_leg_id (·.decCounter hopping_type) }
  else s

/-- `OrderSequenceMapper._get_order`: looks the leg up in the merged
registry, writes `order['leg_id'] = unique_leg_id` into the stored dict
(a genuine mutation of the registry), and returns a deep copy.  A missing
id raises `TypeError` in Python before the `None` check can fire; the
embedding returns `none`. -/
def SequencerState.get_order (s : SequencerState) (unique_leg_id : String) :
    Option LegDict × SequencerState :=
  match dictGet s.all_order_dict unique_leg_id with
  | none => (none, s)
  | some o =>
    let o' := { o with leg_id := some unique_leg_id }
    (some o',
     { s with all_order_dict :=
         dictModify s.all_order_dict unique_leg_id (fun _ => o') })

/-- Python `s.replace(".", "_")` for the single-character pattern the
sequencer uses (character-wise replacement is exact for a one-character
pattern). -/
def replaceDot (s : String) : String :=
  ⟨s.data.map (fun c => if c = '.' then '_' else c)⟩

/-- `OrderSequenceMapper.get_next_order`: decrements `hopping_type` on the
*passed-in* (exiting) leg's registry entry, then resolves the hop-target
leg named by `prev_executed_order[leg_to_fetch]` (with `.` replaced by
`_`) and returns that leg's config together with the target's id. -/
def SequencerState.get_next_order (s : SequencerState)
    (prev_executed_order : LegDict) (unique_leg_id : String)
    (hopping_type leg_to_fetch : String) :
    (Option LegDict × String) × SequencerState :=
  let s1 := s.hopping_count_manager unique_leg_id hopping_type
  let next_order_leg_id :=
    replaceDot (prev_executed_order.getLegRef leg_to_fetch)
  let res := s1.get_order next_order_leg_id
  ((res.1, next_order_leg_id), res.2)

/-- A re-entry or hop submission handed to `EntryManager.submit_order` by
the day driver: the `leg_id` slot, the leg config, and the
`execution_type` override (`"IMMEDIATE"` for budgeted re-entries, `""`
for hops). -/
structure Submission where
  leg_id : String
  leg_config : LegDict
  execution_type : String
deriving Repr, DecidableEq

/-- The day driver's budget guard
`o.get(key, 0) != None and o.get(key, 0) > 0`: true exactly when the key
holds a (non-`None`) integer that is positive. -/
def optPos : Option ℤ → Bool
  | some n => decide (0 < n)
  | none => false

/-- The re-entry/hop decision of `DayProcessor.process_day` (lines
322–397) for one position closed at the current timestamp.
`stop_loss_triggers` mirrors the loop variable of the same name that the
first hop branch reads: it is the stop-loss check result of the *last*
position scanned at this timestamp, not necessarily of this closed
position (faithful to the source).  Returns the updated sequencer state
and the submission, if any.  A hop whose target id is missing from the
registry raises in Python inside `_get_order`; the embedding yields no
submission there. -/
def reentryStep (seq : SequencerState) (closed : Position)
    (stop_loss_triggers : Bool) : SequencerState × Option Submission :=
  let leg_id := closed.leg_id
  let o := closed.leg_dict
  let stoploss_based_closing := pyIn "SL" (closed.exit_reason.getD "")
  let target_based_closing := pyIn "Target" (closed.exit_reason.getD "")
  if stoploss_based_closing && o.rentry_sl_toggle &&
      optPos o.total_sl_rentry then
    let seq' := seq.hopping_count_manager leg_id "total_sl_rentry"
    let o' := { o with total_sl_rentry := o.total_sl_rentry.map (· - 1) }
    (seq', some ⟨leg_id, o', "IMMEDIATE"⟩)
  else if target_based_closing && o.rentry_tgt_toggle &&
      optPos o.total_tgt_rentry then
    let seq' := seq.hopping_count_manager leg_id "total_tgt_rentry"
    let o' := { o with total_tgt_rentry := o.total_tgt_rentry.map (· - 1) }
    (seq', some ⟨leg_id, o', "IMMEDIATE"⟩)
  else if stop_loss_triggers ∧ 0 < o.leg_hopping_count_sl ∧
      strTruthy o.leg_tobe_executed_on_sl then
    let res := seq.get_next_order o leg_id "leg_hopping_count_sl"
      "leg_tobe_executed_on_sl"
    (res.2, (res.1.1).map (fun o2 => ⟨res.1.2, o2, ""⟩))
  else if target_based_closing ∧ 0 < o.leg_hopping_count_tgt ∧
      strTruthy o.leg_tobe_executed_on_target then
    let res := seq.get_next_order o leg_id "leg_hopping_count_tgt"
      "leg_tobe_executed_on_target"
    (res.2, (res.1.1).map (fun o2 => ⟨res.1.2, o2, ""⟩))
  else if (stoploss_based_closing ∨ target_based_closing) ∧
      0 < o.leg_hopping_count_next_leg ∧
      strTruthy o.next_lazy_leg_to_be_executed then
    let res := seq.get_next_order o leg_id "leg_hopping_count_next_leg"
      "next_lazy_leg_to_be_executed"
    (res.2, (res.1.1).map (fun o2 => ⟨res.1.2, o2, ""⟩))
  else (seq, none)

/-- The remaining stop-loss re-entry budget recorded in the shared order
registry for a leg. -/
def SequencerState.slBudget (s : SequencerState) (leg_id : String) :
    Option ℤ :=
  (dictGet s.all_order_dict leg_id).bind (·.total_sl_rentry)

/-- The remaining target re-entry budget recorded in the shared order
registry for a leg. -/
def SequencerState.tgtBudget (s : SequencerState) (leg_id : String) :
    Option ℤ :=
  (dictGet s.all_order_dict leg_id).bind (·.total_tgt_rentry)

/-!
Entry manager (Managers/entry_manager/).  The options extractor is the
out-of-scope price-data provider; it is abstracted as an oracle
`fetchRow : strike → timestamp → Option row`.  Strategy payloads other
than the range-breakout state machine's are not read by any claim and are
omitted from the order spec.
-/

/-- `EntryStrategy._calculate_strike` (base_strategy.py lines 198–234);
Python's integer `round` is banker's rounding, `pyRound`. -/
def calculate_strike (base : ℚ) (leg_config : LegDict) (spot_price : ℚ) : ℚ :=
  let strike_type := leg_config.strike_type.getD "ATM"
  if strike_type = "ATM" then base * pyRound (spot_price / base)
  else if strike_type = "OTM" then
    let spread_value := leg_config.spread * base
    if leg_config.option_type = some "CE" then
      base * pyRound ((spot_price + spread_value) / base)
    else
      base * pyRound ((spot_price - spread_value) / base)
  else if strike_type = "ITM" then
    let spread_value := leg_config.spread * base
    if leg_config.option_type = some "CE" then
      base * pyRound ((spot_price - spread_value) / base)
    else
      base * pyRound ((spot_price + spread_value) / base)
  else base * pyRound (spot_price / base)

/-- `EntryManager._determine_strategy_type` (entry_manager.py lines
103–122). -/
def determine_strategy_type (leg_config : LegDict) : String :=
  if leg_config.sm_toggle then "MOMENTUM"
  else if leg_config.range_breakout_toggle then "RANGE_BREAKOUT"
  else "IMMEDIATE"

/-- The keys of `EntryManager.strategy_registry`
(`_register_strategies`, entry_manager.py lines 74–101). -/
def strategy_registry_keys : List String :=
  ["IMMEDIATE", "MOMENTUM", "RANGE_BREAKOUT"]

/-- `OrderSpec` (base_strategy.py), restricted to the fields the claims
read. -/
structure OrderSpecM where
  order_id : String
  leg_id : String
  leg_config : LegDict
  timestamp_created : ℕ
  strategy_type : String
deriving Repr, DecidableEq

/-- The pending/executed bookkeeping of `EntryManager`. -/
structure EntryManagerState where
  pending_orders : List (String × OrderSpecM) := []
  executed_orders : List String := []
deriving Repr, DecidableEq

/-- `generate_order_spec` of the immediate and momentum strategies, which
share the observable shape: compute the strike, fetch the option row at
the submission timestamp (returning `None` when the provider has no row),
and build a spec with `order_id = f"{leg_id}_{int(timestamp.timestamp())}"`. -/
def generate_order_spec_fetching (strategy_type : String) (base : ℚ)
    (fetchRow : ℚ → ℕ → Option OHLC) (leg_id : String) (leg_config : LegDict)
    (timestamp : ℕ) (spot_price : ℚ) : Option OrderSpecM :=
  let strike := calculate_strike base leg_config spot_price
  match fetchRow strike timestamp with
  | none => none
  | some _ =>
    some { order_id := leg_id ++ "_" ++ toString timestamp,
           leg_id := leg_id, leg_config := leg_config,
           timestamp_created := timestamp, strategy_type := strategy_type }

/-- `RangeBreakoutStrategy.generate_order_spec` additionally refuses to
submit once the range-calculation period has passed. -/
def RangeBreakoutStrategy.generate_order_spec (base : ℚ)
    (fetchRow : ℚ → ℕ → Option OHLC) (leg_id : String) (leg_config : LegDict)
    (timestamp : ℕ) (spot_price : ℚ) : Option OrderSpecM :=
  let threshold_time := leg_config.range_breakout_threshold_time.getD (15 * 60 + 30)
  if threshold_time ≤ timestamp then none
  else generate_order_spec_fetching "RANGE_BREAKOUT" base fetchRow
    leg_id leg_config timestamp spot_price

/-- `EntryManager.submit_order` (entry_manager.py lines 124–208): pick the
strategy (the `execution_type` override short-circuits flag dispatch),
generate the spec, and store it in `pending_orders` keyed by its
`order_id` — there is no per-leg deduplication. -/
def submit_order (st : EntryManagerState) (base : ℚ)
    (fetchRow : ℚ → ℕ → Option OHLC) (leg_id : String) (leg_config : LegDict)
    (timestamp : ℕ) (spot_price : ℚ) (execution_type : String := "") :
    Option String × EntryManagerState :=
  let strategy_type :=
    if execution_type = "" then determine_strategy_type leg_config
    else execution_type
  if strategy_type ∉ strategy_registry_keys then (none, st)
  else
    let spec? :=
      if strategy_type = "RANGE_BREAKOUT" then
        RangeBreakoutStrategy.generate_order_spec base fetchRow leg_id
          leg_config timestamp spot_price
      else
        generate_order_spec_fetching strategy_type base fetchRow leg_id
          leg_config timestamp spot_price
    match spec? with
    | none => (none, st)
    | some spec =>
      (some spec.order_id,
       { st with pending_orders := dictSet st.pending_orders spec.order_id spec })

/-!
Range-breakout execution state machine
(Managers/entry_manager/range_breakout_strategy.py).  The provider's
full-day frame for the order's ticker is a list of timestamped rows.
-/

/-- One provider row for the order's ticker. -/
structure RBRow where
  ts : ℕ
  row : OHLC
deriving Repr, DecidableEq

/-- The range-breakout `strategy_data` dict. -/
structure RBData where
  range_start : ℕ
  range_end : ℕ
  breakout_of : String
  breakout_direction : String
  compare_field : String
  range_break_price : Option ℚ := none
  range_calculated : Bool := false
deriving Repr, DecidableEq

/-- `RangeBreakoutStrategy._calculate_range` (lines 120–172): filter the
ticker's day rows to `range_start ≤ t ≤ range_end` — both endpoints
included — and take the max High (resp. min Low), rounded to two
decimals. -/
def RangeBreakoutStrategy.calculate_range (rows : List RBRow) (d : RBData) :
    Option ℚ :=
  let range_df := rows.filter
    (fun r => decide (d.range_start ≤ r.ts ∧ r.ts ≤ d.range_end))
  if range_df.isEmpty then none
  else if d.breakout_of = "High" then
    ((range_df.map (fun r => r.row.High)).max?).map round2
  else
    ((range_df.map (fun r => r.row.Low)).min?).map round2

/-- The breakout check at the tail of `can_execute`: with a cached level,
fetch the row at the current time (missing row ⇒ "not yet") and compare
the configured field beyond the level in the configured direction. -/
def RangeBreakoutStrategy.checkBreakout (rows : List RBRow) (d : RBData)
    (now : ℕ) : Bool × RBData :=
  match d.range_break_price with
  | none => (false, d)
  | some rp =>
    match rows.find? (fun r => r.ts = now) with
    | none => (false, d)
    | some r =>
      let current_value := r.row.get d.compare_field
      (if d.breakout_direction = "ABOVE" then decide (rp < current_value)
       else decide (current_value < rp), d)

/-- `RangeBreakoutStrategy.can_execute` (lines 174–250): while the range is
uncalculated and `now ≤ range_end`, always "not yet"; on the first call
with `now > range_end` compute and cache the range level, then (in the
same call and on every later call) run the breakout check. -/
def RangeBreakoutStrategy.can_execute (rows : List RBRow) (d : RBData)
    (now : ℕ) : Bool × RBData :=
  if !d.range_calculated then
    if d.range_end < now then
      match RangeBreakoutStrategy.calculate_range rows d with
      | none => (false, d)
      | some rp =>
        RangeBreakoutStrategy.checkBreakout rows
          { d with range_break_price := some rp, range_calculated := true } now
    else (false, d)
  else RangeBreakoutStrategy.checkBreakout rows d now

/-- Modelled from the spec: the breakout level as the specification words
it — "max(High) or min(Low) over the window" with the window
`[submission_time, configured_threshold_time)`, i.e. *excluding* the
threshold time itself.  Kept separate from the source-derived
`RangeBreakoutStrategy.calculate_range` for comparison. -/
def specRangeLevel (rows : List RBRow) (d : RBData) : Option ℚ :=
  let window := rows.filter
    (fun r => decide (d.range_start ≤ r.ts ∧ r.ts < d.range_end))
  if window.isEmpty then none
  else if d.breakout_of = "High" then
    (window.map (fun r => r.row.High)).max?
  else
    (window.map (fun r => r.row.Low)).min?

/-- The spec's wording corrected to the *inclusive* window
`[range_start, range_end]` that the source actually filters
(`>= range_start_time` and `<= range_end_time`); kept separate from the
source-derived `RangeBreakoutStrategy.calculate_range`, which equals this
level rounded to two decimals. -/
def specRangeLevelIncl (rows : List RBRow) (d : RBData) : Option ℚ :=
  let window := rows.filter
    (fun r => decide (d.range_start ≤ r.ts ∧ r.ts ≤ d.range_end))
  if window.isEmpty then none
  else if d.breakout_of = "High" then
    (window.map (fun r => r.row.High)).max?
  else
    (window.map (fun r => r.row.Low)).min?

/-- `EntryStrategy._calculate_sl_target` (base_strategy.py lines 236–280):
the per-fill SL/target computation the entry strategies write into the
trade table (and which the day driver then passes to `create_position` as
`sl_value` / `target_price`).  Note the exact (case-sensitive) comparison
with `'Sell'` and the `0.0` placeholders when a toggle is off. -/
def calculate_sl_target (entry_price : ℚ) (leg_config : LegDict)
    (position_type : String) : ℚ × ℚ :=
  let stop_loss :=
    if leg_config.stoploss_toggle then
      let stoploss_type := leg_config.stoploss_type.getD "Percentage"
      let stoploss_value := leg_config.stoploss_value
      if stoploss_type = "Points" then
        if position_type = "Sell" then round2 (entry_price + stoploss_value)
        else round2 (entry_price - stoploss_value)
      else
        if position_type = "Sell" then
          round2 (entry_price + entry_price * stoploss_value)
        else round2 (entry_price - entry_price * stoploss_value)
    else 0
  let target_price :=
    if leg_config.target_toggle then
      let target_value := leg_config.target_value
      if position_type = "Sell" then
        round2 (entry_price - entry_price * target_value)
      else round2 (entry_price + entry_price * target_value)
    else 0
  (stop_loss, target_price)

/-!
Ledger reachability: the operations the day driver performs on the
`PNLManager` over a day. -/

/-- One ledger operation. -/
inductive LedgerOp where
  | create (leg_id unique_leg_id trading_symbol instrument_type : String)
      (strike : ℚ) (entry_timestamp : ℕ) (entry_price : ℚ) (quantity : ℤ)
      (position_type : String) (leg_dict : LegDict)
      (sl_value target_price : Option ℚ)
  | close (position_id : String) (exit_timestamp : ℕ) (exit_price : ℚ)
      (exit_reason : String)
  | updateLtp (position_id : String) (ltp : ℚ)
  | updateAll (rowOf : String → OHLC)
  | recordOrder (timestamp : ℕ) (ticker order_side : String)
      (price : Option ℚ) (summary : String)

/-- Apply one ledger operation. -/
def applyOp (m : PNLManager) : LedgerOp → PNLManager
  | .create a b c d e f g h i j k l =>
      (m.create_position a b c d e f g h i j "" "" ⟨0, 0, 0, 0⟩ k l).2
  | .close pid t ep r => (m.close_position pid t ep r).2
  | .updateLtp pid ltp => m.update_position_ltp pid ltp
  | .updateAll rowOf => m.update_all_ltps rowOf
  | .recordOrder t tk side pr s => m.record_order t tk side pr s

/-- The ledger state after a day's operation sequence, starting from the
freshly constructed (or `reset`) manager. -/
def runOps (ops : List LedgerOp) : PNLManager :=
  ops.foldl applyOp {}

theorem closed_realized_applyOp (m : PNLManager) (op : LedgerOp)
    (h : ∀ p ∈ m.closed_positions, ∃ ep, p.exit_price = some ep ∧
      p.realized_pnl = p.calculate_pnl ep) :
    ∀ p ∈ (applyOp m op).closed_positions, ∃ ep, p.exit_price = some ep ∧
      p.realized_pnl = p.calculate_pnl ep := by
  cases op with
  | create a1 a2 a3 a4 a5 a6 a7 a8 a9 a10 a11 a12 =>
    simpa [applyOp, PNLManager.create_position, PNLManager.record_order] using h
  | close pid t ep r =>
    intro p hp
    simp only [applyOp, PNLManager.close_position] at hp
    cases hfind : m.active_positions.find? (fun q => q.position_id = pid) with
    | none => rw [hfind] at hp; exact h p hp
    | some q =>
      rw [hfind] at hp
      simp only [PNLManager.record_order, PNLManager.update_total_unrealized_pnl,
        List.mem_append, List.mem_singleton] at hp
      rcases hp with hp | hp
      · exact h p hp
      · subst hp
        exact ⟨ep, rfl, rfl⟩
  | updateLtp pid ltp =>
    intro p hp
    simp only [applyOp, PNLManager.update_position_ltp] at hp
    split at hp
    · simpa [PNLManager.update_total_unrealized_pnl] using h p (by simpa using hp)
    · exact h p hp
  | updateAll rowOf =>
    intro p hp
    simp only [applyOp, PNLManager.update_all_ltps,
      PNLManager.update_total_unrealized_pnl] at hp
    exact h p hp
  | recordOrder t tk side pr s =>
    intro p hp
    simp only [applyOp, PNLManager.record_order] at hp
    exact h p hp

theorem total_realized_applyOp (m : PNLManager) (op : LedgerOp)
    (h : m.total_realized_pnl = (m.closed_positions.map (·.realized_pnl)).sum) :
    (applyOp m op).total_realized_pnl =
      ((applyOp m op).closed_positions.map (·.realized_pnl)).sum := by
  cases op with
  | create a1 a2 a3 a4 a5 a6 a7 a8 a9 a10 a11 a12 =>
    simpa [applyOp, PNLManager.create_position, PNLManager.record_order] using h
  | close pid t ep r =>
    simp only [applyOp, PNLManager.close_position]
    cases hfind : m.active_positions.find? (fun q => q.position_id = pid) with
    | none => simpa using h
    | some q =>
      simp [PNLManager.record_order, PNLManager.update_total_unrealized_pnl, h]
  | updateLtp pid ltp =>
    simp only [applyOp, PNLManager.update_position_ltp]
    split
    · simpa [PNLManager.update_total_unrealized_pnl] using h
    · exact h
  | updateAll rowOf =>
    simpa [applyOp, PNLManager.update_all_ltps,
      PNLManager.update_total_unrealized_pnl] using h
  | recordOrder t tk side pr s =>
    simpa [applyOp, PNLManager.record_order] using h

theorem runOps_invariant (ops : List LedgerOp) :
    (runOps ops).total_realized_pnl =
      ((runOps ops).closed_positions.map (·.realized_pnl)).sum ∧
    ∀ p ∈ (runOps ops).closed_positions, ∃ ep, p.exit_price = some ep ∧
      p.realized_pnl = p.calculate_pnl ep := by
  suffices h : ∀ (m : PNLManager),
      m.total_realized_pnl = (m.closed_positions.map (·.realized_pnl)).sum →
      (∀ p ∈ m.closed_positions, ∃ ep, p.exit_price = some ep ∧
        p.realized_pnl = p.calculate_pnl ep) →
      (ops.foldl applyOp m).total_realized_pnl =
        ((ops.foldl applyOp m).closed_positions.map (·.realized_pnl)).sum ∧
      ∀ p ∈ (ops.foldl applyOp m).closed_positions, ∃ ep,
        p.exit_price = some ep ∧ p.realized_pnl = p.calculate_pnl ep by
    exact h {} (by simp) (by simp)
  induction ops with
  | nil => intro m h1 h2; exact ⟨h1, h2⟩
  | cons op tl ih =>
    intro m h1 h2
    exact ih (applyOp m op) (total_realized_applyOp m op h1)
      (closed_realized_applyOp m op h2)


theorem pyUpper_Buy : pyUpper "Buy" = "BUY" := by decide

theorem pyUpper_Sell : pyUpper "Sell" = "SELL" := by decide

theorem round2_int (n : ℤ) : round2 (n : ℚ) = n :=
  round2_of_centGrid ⟨n * 100, by push_cast; ring⟩

theorem round2_eq_self_of_int (q : ℚ) (n : ℤ) (h : q = n) : round2 q = q := by
  rw [h, round2_int]

/-- `close_position` on an id absent from the active set: `None`, state
untouched. -/
theorem close_position_not_found (m : PNLManager) (pid : String) (t : ℕ)
    (ep : ℚ) (r : String)
    (h : m.active_positions.find? (fun p => p.position_id = pid) = none) :
    m.close_position pid t ep r = (none, m) := by
  rw [PNLManager.close_position, h]

/-- After any `close_position` call, the closed id is no longer findable in
the active set. -/
theorem find?_after_close (m : PNLManager) (pid : String) (t : ℕ) (ep : ℚ)
    (r : String) :
    ((m.close_position pid t ep r).2).active_positions.find?
      (fun p => p.position_id = pid) = none := by
  rw [PNLManager.close_position]
  cases hfind : m.active_positions.find? (fun p => p.position_id = pid) with
  | none => simpa using hfind
  | some q =>
    simp only [PNLManager.record_order, PNLManager.update_total_unrealized_pnl]
    rw [List.find?_eq_none]
    intro p hp
    rw [List.mem_filter] at hp
    simpa using hp.2

/-- A placeholder position used only as the default of `List.getD` in the
concrete witnesses. -/
def dummyPos : Position :=
  { position_id := "", leg_id := "", unique_leg_id := "", trading_symbol := "",
    instrument_type := "", strike := 0, entry_timestamp := 0, entry_price := 0,
    quantity := 0, position_type := "", leg_dict := {} }

/-- The leg configuration used by the concrete witnesses: Points stop loss
of 10, target of 10 % (already a fraction), SL re-entry budget of one. -/
def demoLeg : LegDict :=
  { unique_leg_id := some "leg_1", stoploss_toggle := true,
    stoploss_type := some "Points", stoploss_value := 10,
    target_toggle := true, target_value := 1/10,
    rentry_sl_toggle := true, total_sl_rentry := some 1 }

/-- A two-operation day used by the witnesses: one Sell position entered
at 100 (quantity 75) and closed at 95. -/
def demoOps : List LedgerOp :=
  [LedgerOp.create "leg_1" "leg_1" "NIFTY20000CE" "CE" 20000 555 100 75
      "Sell" demoLeg (some 110) (some 90),
   LedgerOp.close "leg_1_1" 600 95 "Exit time triggered for leg leg_1"]

/-- The open position created by the first demo operation. -/
def demoOpenLit : Position :=
  { position_id := "leg_1_1", leg_id := "leg_1", unique_leg_id := "leg_1",
    trading_symbol := "NIFTY20000CE", instrument_type := "CE",
    strike := 20000, entry_timestamp := 555, entry_price := 100,
    quantity := 75, position_type := "Sell", leg_dict := demoLeg,
    current_ltp := 100, stop_loss := some 110, target_price := some 90 }

/-- The closed position produced by both demo operations. -/
def demoClosedLit : Position :=
  { demoOpenLit with
    current_ltp := 95, is_active := false, exit_timestamp := some 600,
    exit_price := some 95,
    exit_reason := some "Exit time triggered for leg leg_1",
    realized_pnl := 375, unrealized_pnl := 0 }

/-- The ledger state holding the single open demo position. -/
def demoMgr : PNLManager := runOps (demoOps.take 1)

theorem demoMgr_active : demoMgr.active_positions = [demoOpenLit] := by
  simp only [demoMgr, demoOps, runOps, List.take, List.foldl, applyOp,
    PNLManager.create_position, PNLManager.record_order]
  norm_num [demoOpenLit]
  exact ⟨by decide, round2_eq_self_of_int _ 110 (by norm_num),
    round2_eq_self_of_int _ 90 (by norm_num)⟩

theorem demoMgr_closed : demoMgr.closed_positions = [] := rfl

theorem demoRun_closed : (runOps demoOps).closed_positions = [demoClosedLit] := by
  have hrun : runOps demoOps =
      (demoMgr.close_position "leg_1_1" 600 95
        "Exit time triggered for leg leg_1").2 := rfl
  rw [hrun, PNLManager.close_position]
  rw [demoMgr_active]
  simp only [List.find?]
  norm_num [PNLManager.record_order, PNLManager.update_total_unrealized_pnl,
    Position.close_position, Position.calculate_pnl, demoOpenLit,
    demoClosedLit, pyUpper_Sell, demoMgr_closed]
  norm_num [round2, pyRound]
  simp

/-- C1: in every ledger state reachable by day operations, each closed
position's `realized_pnl` equals `(exit_price − entry_price) * quantity`
for Buy and `(entry_price − exit_price) * quantity` for Sell — exactly so
on two-decimal prices, and with the source's rounding to two decimals in
general — and `total_realized_pnl` is the sum of `realized_pnl` over the
closed positions. -/
theorem C1_realized_pnl_ledger (ops : List LedgerOp) :
    (∀ p ∈ (runOps ops).closed_positions, ∀ ep, p.exit_price = some ep →
      (pyUpper p.position_type = "BUY" →
        p.realized_pnl = round2 ((ep - p.entry_price) * p.quantity)) ∧
      (pyUpper p.position_type ≠ "BUY" →
        p.realized_pnl = round2 ((p.entry_price - ep) * p.quantity)) ∧
      (CentGrid p.entry_price → CentGrid ep →
        (pyUpper p.position_type = "BUY" →
          p.realized_pnl = (ep - p.entry_price) * p.quantity) ∧
        (pyUpper p.position_type ≠ "BUY" →
          p.realized_pnl = (p.entry_price - ep) * p.quantity))) ∧
    (runOps ops).total_realized_pnl =
      ((runOps ops).closed_positions.map (·.realized_pnl)).sum := by
  obtain ⟨h1, h2⟩ := runOps_invariant ops
  refine ⟨?_, h1⟩
  intro p hp ep hep
  obtain ⟨ep', hep', hreal⟩ := h2 p hp
  rw [hep] at hep'
  injection hep' with hep''
  subst hep''
  rw [Position.calculate_pnl] at hreal
  constructor
  · intro hbuy; rw [hreal, if_pos hbuy]
  constructor
  · intro hbuy; rw [hreal, if_neg hbuy]
  · intro hce hcep
    constructor
    · intro hbuy
      rw [hreal, if_pos hbuy]
      exact round2_of_centGrid (centGrid_mul_int (centGrid_sub hcep hce) _)
    · intro hbuy
      rw [hreal, if_neg hbuy]
      exact round2_of_centGrid (centGrid_mul_int (centGrid_sub hce hcep) _)

theorem C1_realized_pnl_ledger_witness :
    demoClosedLit ∈ (runOps demoOps).closed_positions ∧
    demoClosedLit.exit_price = some 95 ∧
    demoClosedLit.realized_pnl = (100 - 95) * 75 := by
  have hmem : demoClosedLit ∈ (runOps demoOps).closed_positions := by
    rw [demoRun_closed]; exact List.mem_singleton.mpr rfl
  have h := (C1_realized_pnl_ledger demoOps).1 demoClosedLit hmem 95 rfl
  have hside : pyUpper demoClosedLit.position_type ≠ "BUY" := by
    show pyUpper "Sell" ≠ "BUY"
    rw [pyUpper_Sell]; decide
  have hx := (h.2.2 ⟨10000, by norm_num [demoClosedLit, demoOpenLit]⟩
    ⟨9500, by norm_num⟩).2 hside
  refine ⟨hmem, rfl, ?_⟩
  rw [hx]
  norm_num [demoClosedLit, demoOpenLit]

/-- C2: stop-loss and target levels from entry price, side and leg config:
in the ledger's `_calculate_stop_loss` / `_calculate_target_price`,
Points-type SL is `entry ± value` (+ for Sell, − for Buy), Percentage-type
SL is `entry * (1 ± value)` (+ for Sell, − for Buy), and the target is
`entry * (1 ∓ value)` (− for Sell, + for Buy); the entry strategies'
`_calculate_sl_target` computes the same levels rounded to two decimals. -/
theorem C2_sl_target_formulas (entry_price : ℚ) (leg : LegDict)
    (hslt : leg.stoploss_toggle = true) (hslv : leg.stoploss_value ≠ 0)
    (htgt : leg.target_toggle = true) (htgv : leg.target_value ≠ 0) :
    ((leg.stoploss_type.getD "Points" = "Points" →
      PNLManager.calculate_stop_loss entry_price leg "Sell"
        = some (entry_price + leg.stoploss_value) ∧
      PNLManager.calculate_stop_loss entry_price leg "Buy"
        = some (entry_price - leg.stoploss_value)) ∧
     (leg.stoploss_type.getD "Points" ≠ "Points" →
      PNLManager.calculate_stop_loss entry_price leg "Sell"
        = some (entry_price * (1 + leg.stoploss_value)) ∧
      PNLManager.calculate_stop_loss entry_price leg "Buy"
        = some (entry_price * (1 - leg.stoploss_value)))) ∧
    (PNLManager.calculate_target_price entry_price leg "Sell"
        = some (entry_price * (1 - leg.target_value)) ∧
     PNLManager.calculate_target_price entry_price leg "Buy"
        = some (entry_price * (1 + leg.target_value))) ∧
    ((leg.stoploss_type.getD "Percentage" = "Points" →
      (calculate_sl_target entry_price leg "Sell").1
        = round2 (entry_price + leg.stoploss_value) ∧
      (calculate_sl_target entry_price leg "Buy").1
        = round2 (entry_price - leg.stoploss_value)) ∧
     (leg.stoploss_type.getD "Percentage" ≠ "Points" →
      (calculate_sl_target entry_price leg "Sell").1
        = round2 (entry_price * (1 + leg.stoploss_value)) ∧
      (calculate_sl_target entry_price leg "Buy").1
        = round2 (entry_price * (1 - leg.stoploss_value))) ∧
     (calculate_sl_target entry_price leg "Sell").2
        = round2 (entry_price * (1 - leg.target_value)) ∧
     (calculate_sl_target entry_price leg "Buy").2
        = round2 (entry_price * (1 + leg.target_value))) := by
  refine ⟨⟨?_, ?_⟩, ⟨?_, ?_⟩, ⟨?_, ?_, ?_, ?_⟩⟩
  · intro hty
    simp [PNLManager.calculate_stop_loss, hslt, hslv, hty, pyUpper_Buy,
      pyUpper_Sell]
  · intro hty
    simp [PNLManager.calculate_stop_loss, hslt, hslv, hty, pyUpper_Buy,
      pyUpper_Sell]
  · simp [PNLManager.calculate_target_price, htgt, htgv, pyUpper_Sell]
  · simp [PNLManager.calculate_target_price, htgt, htgv, pyUpper_Buy]
  · intro hty
    simp [calculate_sl_target, hslt, hty]
  · intro hty
    have h1 : (calculate_sl_target entry_price leg "Sell").1
        = round2 (entry_price + entry_price * leg.stoploss_value) := by
      simp [calculate_sl_target, hslt, hty]
    have h2 : (calculate_sl_target entry_price leg "Buy").1
        = round2 (entry_price - entry_price * leg.stoploss_value) := by
      simp [calculate_sl_target, hslt, hty]
    rw [h1, h2]
    constructor <;> (congr 1; ring)
  · have h1 : (calculate_sl_target entry_price leg "Sell").2
        = round2 (entry_price - entry_price * leg.target_value) := by
      simp [calculate_sl_target, htgt]
    rw [h1]; congr 1; ring
  · have h1 : (calculate_sl_target entry_price leg "Buy").2
        = round2 (entry_price + entry_price * leg.target_value) := by
      simp [calculate_sl_target, htgt]
    rw [h1]; congr 1; ring

theorem C2_sl_target_formulas_witness :
    demoLeg.stoploss_toggle = true ∧ demoLeg.stoploss_value = 10 ∧
    PNLManager.calculate_stop_loss 100 demoLeg "Sell" = some 110 ∧
    PNLManager.calculate_target_price 100 demoLeg "Sell" = some 90 := by
  have h := C2_sl_target_formulas 100 demoLeg rfl (by norm_num [demoLeg])
    rfl (by norm_num [demoLeg])
  have h1 := (h.1.1 rfl).1
  have h2 := h.2.1.1
  refine ⟨rfl, by norm_num [demoLeg], ?_, ?_⟩
  · rw [h1]; norm_num [demoLeg]
  · rw [h2]; norm_num [demoLeg]

/-- C3: closing an id that is not in the active set returns `None` and
leaves the ledger unchanged; consequently a second `close_position` on the
same id is always a no-op returning `None` and leaving the state (in
particular `total_realized_pnl`, the closed-position list and the order
book) exactly as the first close left it — the position's realized P&L is
accumulated exactly once. -/
theorem C3_close_noop_idempotent (m : PNLManager) (pid : String)
    (t1 t2 : ℕ) (ep1 ep2 : ℚ) (r1 r2 : String) :
    ((∀ p ∈ m.active_positions, p.position_id ≠ pid) →
      m.close_position pid t1 ep1 r1 = (none, m)) ∧
    (m.close_position pid t1 ep1 r1).2.close_position pid t2 ep2 r2
      = (none, (m.close_position pid t1 ep1 r1).2) := by
  constructor
  · intro h
    refine close_position_not_found m pid t1 ep1 r1 ?_
    rw [List.find?_eq_none]
    intro p hp
    simpa using h p hp
  · exact close_position_not_found _ pid t2 ep2 r2
      (find?_after_close m pid t1 ep1 r1)

theorem C3_close_noop_idempotent_witness :
    (∀ p ∈ (PNLManager.mk [] [] 0 0 0 []).active_positions,
      p.position_id ≠ "ghost") ∧
    (PNLManager.mk [] [] 0 0 0 []).close_position "ghost" 600 95 "x"
      = (none, PNLManager.mk [] [] 0 0 0 []) := by
  refine ⟨by intro p hp; simp at hp, ?_⟩
  exact (C3_close_noop_idempotent (PNLManager.mk [] [] 0 0 0 [])
    "ghost" 600 601 95 96 "x" "y").1 (by intro p hp; simp at hp)

/-- C10: a successful close of an active position appends exactly one
order-book record whose side is `"Buy"` when the position's side is the
exact string `"Sell"` and `"Sell"` otherwise, whose price is the exit
price rounded to two decimals, and whose summary is the exit reason; the
closed position's `unrealized_pnl` is reset to `0`. -/
theorem C10_close_exit_record (m : PNLManager) (pid : String) (t : ℕ)
    (ep : ℚ) (r : String) (p : Position)
    (hfind : m.active_positions.find? (fun q => q.position_id = pid) = some p) :
    (m.close_position pid t ep r).1 = some (p.close_position t ep r) ∧
    (m.close_position pid t ep r).2.order_book = m.order_book ++
      [{ Timestamp := t, Ticker := p.trading_symbol,
         Order_side := if p.position_type = "Sell" then "Buy" else "Sell",
         Price := some (round2 ep), Summary := r }] ∧
    (p.close_position t ep r).unrealized_pnl = 0 ∧
    (p.close_position t ep r).exit_reason = some r := by
  rw [PNLManager.close_position, hfind]
  refine ⟨rfl, ?_, rfl, rfl⟩
  simp [PNLManager.record_order, PNLManager.update_total_unrealized_pnl,
    Position.close_position]

theorem C10_close_exit_record_witness :
    demoMgr.active_positions.find? (fun q => q.position_id = "leg_1_1")
      = some demoOpenLit ∧
    (demoMgr.close_position "leg_1_1" 600 95 "forced exit").2.order_book
      = demoMgr.order_book ++
        [{ Timestamp := 600, Ticker := "NIFTY20000CE", Order_side := "Buy",
           Price := some 95, Summary := "forced exit" }] := by
  have hfind : demoMgr.active_positions.find?
      (fun q => q.position_id = "leg_1_1") = some demoOpenLit := by
    rw [demoMgr_active]
    simp [demoOpenLit]
  have h := C10_close_exit_record demoMgr "leg_1_1" 600 95 "forced exit"
    demoOpenLit hfind
  refine ⟨hfind, ?_⟩
  rw [h.2.1]
  have h95 : round2 95 = 95 := round2_eq_self_of_int _ 95 (by norm_num)
  norm_num [demoOpenLit, h95]

/-- C8 counterexample: the strategy selector of the entry manager in use
(`EntryManager._determine_strategy_type`) never consults the
rolling-straddle flag and registers no rolling-straddle strategy: a leg
with only the rolling-straddle flag set selects IMMEDIATE, and a leg with
both the rolling-straddle and momentum flags set selects MOMENTUM — the
claimed top priority of rolling-straddle is false. -/
theorem C8_counterexample :
    determine_strategy_type { rolling_straddle_toggle := true } = "IMMEDIATE" ∧
    determine_strategy_type
      { rolling_straddle_toggle := true, sm_toggle := true } = "MOMENTUM" ∧
    "ROLLING_STRADDLE" ∉ strategy_registry_keys ∧
    determine_strategy_type { rolling_straddle_toggle := true } ≠ "ROLLING_STRADDLE" := by
  refine ⟨rfl, rfl, by decide, by decide⟩

/-- C8 (amended): order submission selects exactly one registered variant
deterministically by the fixed priority momentum > range-breakout >
immediate; the rolling-straddle flag is not consulted (the registry holds
only IMMEDIATE, MOMENTUM and RANGE_BREAKOUT); in particular with both
momentum and range-breakout flags set, momentum wins. -/
theorem C8_strategy_priority (lc : LegDict) :
    (lc.sm_toggle = true → determine_strategy_type lc = "MOMENTUM") ∧
    (lc.sm_toggle = false → lc.range_breakout_toggle = true →
      determine_strategy_type lc = "RANGE_BREAKOUT") ∧
    (lc.sm_toggle = false → lc.range_breakout_toggle = false →
      determine_strategy_type lc = "IMMEDIATE") ∧
    determine_strategy_type lc ∈ strategy_registry_keys ∧
    (lc.sm_toggle = true → lc.range_breakout_toggle = true →
      determine_strategy_type lc = "MOMENTUM") ∧
    (∀ b, determine_strategy_type { lc with rolling_straddle_toggle := b }
      = determine_strategy_type lc) := by
  refine ⟨?_, ?_, ?_, ?_, ?_, ?_⟩
  · intro h; simp [determine_strategy_type, h]
  · intro h1 h2; simp [determine_strategy_type, h1, h2]
  · intro h1 h2; simp [determine_strategy_type, h1, h2]
  · rcases h1 : lc.sm_toggle <;> rcases h2 : lc.range_breakout_toggle <;>
      simp [determine_strategy_type, h1, h2, strategy_registry_keys]
  · intro h1 _; simp [determine_strategy_type, h1]
  · intro b; simp [determine_strategy_type]

theorem C8_strategy_priority_witness :
    ({ sm_toggle := true, range_breakout_toggle := true : LegDict }).sm_toggle
      = true ∧
    determine_strategy_type
      { sm_toggle := true, range_breakout_toggle := true } = "MOMENTUM" := by
  exact ⟨rfl, (C8_strategy_priority
    { sm_toggle := true, range_breakout_toggle := true }).1 rfl⟩

theorem dictGet_append {α : Type} (l1 l2 : List (String × α)) (k : String) :
    dictGet (l1 ++ l2) k =
      match dictGet l1 k with
      | some v => some v
      | none => dictGet l2 k := by
  induction l1 with
  | nil => simp [dictGet]
  | cons e tl ih =>
    by_cases he : e.1 = k <;> simp [dictGet, he, ih]

theorem dictGet_eq_none_of_any_false {α : Type} (l : List (String × α))
    (k : String) (h : l.any (fun e => e.1 = k) = false) :
    dictGet l k = none := by
  induction l with
  | nil => simp [dictGet]
  | cons e tl ih =>
    simp only [List.any_cons, Bool.or_eq_false_iff] at h
    have he : ¬ e.1 = k := by simpa using h.1
    simp [dictGet, he, ih h.2]

theorem dictGet_map_set {α : Type} (l : List (String × α)) (k k' : String)
    (v : α) (h : k' ≠ k) :
    dictGet (l.map (fun e => if e.1 = k then (k, v) else e)) k'
      = dictGet l k' := by
  induction l with
  | nil => rfl
  | cons e tl ih =>
    by_cases he : e.1 = k
    · have hek : ¬ k = k' := fun hh => h hh.symm
      have he' : ¬ e.1 = k' := by rw [he]; exact hek
      simp [dictGet, he, he', hek, ih]
    · by_cases he' : e.1 = k'
      · simp [dictGet, he, he', h]
      · simp [dictGet, he, he', ih]

theorem dictGet_map_set_self {α : Type} (l : List (String × α)) (k : String)
    (v : α) (hany : l.any (fun e => e.1 = k) = true) :
    dictGet (l.map (fun e => if e.1 = k then (k, v) else e)) k = some v := by
  induction l with
  | nil => simp at hany
  | cons e tl ih =>
    by_cases he : e.1 = k
    · simp [dictGet, he]
    · have htl : tl.any (fun e => e.1 = k) = true := by
        simpa [he] using hany
      simp [dictGet, he, ih htl]

theorem dictGet_dictSet_self {α : Type} (l : List (String × α)) (k : String)
    (v : α) : dictGet (dictSet l k v) k = some v := by
  rw [dictSet]
  by_cases hany : l.any (fun e => e.1 = k)
  · rw [if_pos hany]
    exact dictGet_map_set_self l k v hany
  · have hf : l.any (fun e => e.1 = k) = false := by
      cases hb : l.any (fun e => e.1 = k) with
      | true => exact absurd hb hany
      | false => rfl
    rw [if_neg hany, dictGet_append, dictGet_eq_none_of_any_false l k hf]
    simp [dictGet]

theorem dictGet_dictSet_ne {α : Type} (l : List (String × α)) (k k' : String)
    (v : α) (h : k' ≠ k) : dictGet (dictSet l k v) k' = dictGet l k' := by
  rw [dictSet]
  by_cases hany : l.any (fun e => e.1 = k)
  · rw [if_pos hany]
    exact dictGet_map_set l k k' v h
  · rw [if_neg hany, dictGet_append]
    cases hg : dictGet l k' with
    | some w => simp
    | none =>
      simp only [hg, dictGet]
      rw [if_neg (fun hh => h hh.symm)]

/-- The options-data oracle used by the entry-manager witnesses: a row is
available for every strike and timestamp. -/
def c9fetch : ℚ → ℕ → Option OHLC := fun _ _ => some ⟨1, 1, 1, 1⟩

/-- C9 counterexample: `submit_order` has no pending-per-leg guard — after
a second submission for the same leg at a later timestamp the pending set
holds two orders for that leg, so "at most one order per leg" is false. -/
theorem C9_counterexample :
    ((submit_order (EntryManagerState.mk [] []) 50 c9fetch "leg_1" {} 100
        20000 "").2.pending_orders.map (fun e => e.2.leg_id)) = ["leg_1"] ∧
    ((submit_order ((submit_order (EntryManagerState.mk [] []) 50 c9fetch
        "leg_1" {} 100 20000 "").2) 50 c9fetch "leg_1" {} 160 20000
        "").2.pending_orders.map (fun e => e.2.leg_id)) =
      ["leg_1", "leg_1"] := by
  constructor <;> decide

/-- Abbreviation for the order spec the fetching strategies build (used to
state the C9 theorems compactly). -/
def mkSpec (leg : String) (lc : LegDict) (t : ℕ) (sty : String) : OrderSpecM :=
  { order_id := leg ++ "_" ++ toString t, leg_id := leg, leg_config := lc,
    timestamp_created := t, strategy_type := sty }

theorem submit_order_immediate (st : EntryManagerState) (base : ℚ)
    (fetchRow : ℚ → ℕ → Option OHLC) (leg : String) (lc : LegDict)
    (t : ℕ) (spot : ℚ) (row : OHLC)
    (hst : determine_strategy_type lc = "IMMEDIATE")
    (h : fetchRow (calculate_strike base lc spot) t = some row) :
    submit_order st base fetchRow leg lc t spot ""
      = (some (leg ++ "_" ++ toString t),
         { st with pending_orders := dictSet st.pending_orders (leg ++ "_" ++ toString t) (mkSpec leg lc t "IMMEDIATE") }) := by
  have hmem : ¬ ("IMMEDIATE" ∉ strategy_registry_keys) := by
    simp [strategy_registry_keys]
  rw [submit_order]
  simp only [if_pos rfl, hst, if_neg hmem]
  simp [generate_order_spec_fetching, h, mkSpec, strategy_registry_keys]

/-- C9 (amended): there is no defensive per-leg deduplication in
`submit_order`: every successful submission stores a fresh `OrderSpec`
keyed by `order_id = leg_id + "_" + timestamp`; a second successful
submission for the same leg at a different timestamp leaves *two* pending
orders for that leg, the first of them unchanged. -/
theorem C9_submit_no_dedup (st : EntryManagerState) (base : ℚ)
    (fetchRow : ℚ → ℕ → Option OHLC) (leg : String) (lc : LegDict)
    (t1 t2 : ℕ) (spot1 spot2 : ℚ) (row1 row2 : OHLC)
    (hst : determine_strategy_type lc = "IMMEDIATE")
    (h1 : fetchRow (calculate_strike base lc spot1) t1 = some row1)
    (h2 : fetchRow (calculate_strike base lc spot2) t2 = some row2)
    (hid : leg ++ "_" ++ toString t1 ≠ leg ++ "_" ++ toString t2) :
    dictGet (submit_order st base fetchRow leg lc t1 spot1
        "").2.pending_orders (leg ++ "_" ++ toString t1)
      = some (mkSpec leg lc t1 "IMMEDIATE") ∧
    dictGet (submit_order (submit_order st base fetchRow leg lc t1 spot1
          "").2 base fetchRow leg lc t2 spot2 "").2.pending_orders
        (leg ++ "_" ++ toString t1)
      = dictGet (submit_order st base fetchRow leg lc t1 spot1
          "").2.pending_orders (leg ++ "_" ++ toString t1) ∧
    dictGet (submit_order (submit_order st base fetchRow leg lc t1 spot1
          "").2 base fetchRow leg lc t2 spot2 "").2.pending_orders
        (leg ++ "_" ++ toString t2)
      = some (mkSpec leg lc t2 "IMMEDIATE") := by
  have hs1 := submit_order_immediate st base fetchRow leg lc t1 spot1 row1
    hst h1
  have hs2 := submit_order_immediate (submit_order st base fetchRow leg lc
    t1 spot1 "").2 base fetchRow leg lc t2 spot2 row2 hst h2
  refine ⟨?_, ?_, ?_⟩
  · rw [hs1]
    exact dictGet_dictSet_self _ _ _
  · rw [hs2]
    exact dictGet_dictSet_ne _ _ _ _ hid
  · rw [hs2]
    exact dictGet_dictSet_self _ _ _

theorem C9_submit_no_dedup_witness :
    determine_strategy_type ({} : LegDict) = "IMMEDIATE" ∧
    c9fetch (calculate_strike 50 {} 20000) 100 = some ⟨1, 1, 1, 1⟩ ∧
    dictGet (submit_order (submit_order (EntryManagerState.mk [] []) 50
        c9fetch "leg_1" {} 100 20000 "").2 50 c9fetch "leg_1" {} 160 20000
        "").2.pending_orders ("leg_1" ++ "_" ++ toString 160)
      = some (mkSpec "leg_1" {} 160 "IMMEDIATE") := by
  refine ⟨rfl, rfl, ?_⟩
  exact (C9_submit_no_dedup (EntryManagerState.mk [] []) 50 c9fetch "leg_1"
    {} 100 160 20000 20000 ⟨1, 1, 1, 1⟩ ⟨1, 1, 1, 1⟩ rfl rfl rfl
    (by decide)).2.2

/-- Leg configs for the C7 leg-hopping scenario: `leg_1` hops to `leg_2`
on stop-loss with 2 hops left; `leg_2` has 5 hops left. -/
def hopLeg1 : LegDict :=
  { unique_leg_id := some "leg_1", leg_hopping_count_sl := 2,
    leg_tobe_executed_on_sl := some "leg_2" }

def hopLeg2 : LegDict :=
  { unique_leg_id := some "leg_2", leg_hopping_count_sl := 5 }

def hopSeq : SequencerState :=
  { all_order_dict := [("leg_1", hopLeg1), ("leg_2", hopLeg2)] }

/-- The `leg_1` position closed by stop loss in the C7 scenario. -/
def hopClosed : Position :=
  { position_id := "leg_1_1", leg_id := "leg_1", unique_leg_id := "leg_1",
    trading_symbol := "T", instrument_type := "CE", strike := 0,
    entry_timestamp := 0, entry_price := 0, quantity := 0,
    position_type := "Sell", leg_dict := hopLeg1, is_active := false,
    exit_reason := some "SL Triggered Exit for leg leg_1" }

/-- C7 counterexample: on a stop-loss leg-hop the day driver decrements
the hop count of the *original* (exiting) leg's registry entry (2 → 1),
leaves the target leg's hop count unchanged (still 5, not 4), and submits
the target leg's order under the *target* leg's id (`"leg_2"`, not the
original `"leg_1"` slot) — both directions of the claim fail. -/
theorem C7_counterexample :
    ((reentryStep hopSeq hopClosed true).2).map (fun s => s.leg_id)
      = some "leg_2" ∧
    (dictGet (reentryStep hopSeq hopClosed true).1.all_order_dict
      "leg_2").map (fun d => d.leg_hopping_count_sl) = some 5 ∧
    (dictGet (reentryStep hopSeq hopClosed true).1.all_order_dict
      "leg_1").map (fun d => d.leg_hopping_count_sl) = some 1 ∧
    (some "leg_2" ≠ some "leg_1") ∧ (some (5 : ℤ) ≠ some 4) := by
  refine ⟨by decide, by decide, by decide, by decide, by decide⟩

/-- C7 (amended): when a position closes and the stop-loss leg-hopping
rule applies (budgeted re-entry not taken, positive remaining hop count,
hop target configured), the scheduler resolves the hop-target leg's
static config by id, decrements the *original* (exiting) leg's hop count
in the shared order registry, and submits the target leg's order under
the *target* leg's leg_id; the target's own hop count is not consumed. -/
theorem C7_leg_hop (seq : SequencerState) (p : Position) (tgt : LegDict)
    (ref tid : String)
    (hr1 : p.leg_dict.rentry_sl_toggle = false)
    (hr2 : p.leg_dict.rentry_tgt_toggle = false)
    (hcnt : 0 < p.leg_dict.leg_hopping_count_sl)
    (href : p.leg_dict.leg_tobe_executed_on_sl = some ref)
    (hne : ref.data.isEmpty = false)
    (htid : replaceDot ref = tid)
    (hdist : tid ≠ p.leg_id)
    (hlook : dictGet seq.all_order_dict tid = some tgt) :
    (reentryStep seq p true).2
      = some ⟨tid, { tgt with leg_id := some tid }, ""⟩ ∧
    (dictGet (reentryStep seq p true).1.all_order_dict p.leg_id).map
        (fun d => d.leg_hopping_count_sl)
      = (dictGet seq.all_order_dict p.leg_id).map
        (fun d => d.leg_hopping_count_sl - 1) ∧
    dictGet (reentryStep seq p true).1.all_order_dict tid
      = some { tgt with leg_id := some tid } ∧
    ({ tgt with leg_id := some tid }).leg_hopping_count_sl
      = tgt.leg_hopping_count_sl := by
  have htruthy : strTruthy p.leg_dict.leg_tobe_executed_on_sl = true := by
    rw [href]
    simp [strTruthy, hne]
  have hg1 : dictGet (dictModify seq.all_order_dict p.leg_id
      (fun d => d.decCounter "leg_hopping_count_sl")) tid
      = some tgt := by
    rw [dictGet_dictModify, if_neg hdist, hlook]
  have hgetref : p.leg_dict.getLegRef "leg_tobe_executed_on_sl" = ref := by
    rw [LegDict.getLegRef]
    simp [href]
  have hstep : reentryStep seq p true
      = ((seq.get_next_order p.leg_dict p.leg_id "leg_hopping_count_sl"
          "leg_tobe_executed_on_sl").2,
         ((seq.get_next_order p.leg_dict p.leg_id "leg_hopping_count_sl"
           "leg_tobe_executed_on_sl").1.1).map
           (fun o2 => ⟨(seq.get_next_order p.leg_dict p.leg_id
             "leg_hopping_count_sl" "leg_tobe_executed_on_sl").1.2, o2, ""⟩)) := by
    simp only [reentryStep]
    split_ifs with h1 h2 h3 h4 h5
    · rw [hr1] at h1; simp at h1
    · rw [hr2] at h2; simp at h2
    · rfl
    · exact absurd ⟨trivial, hcnt, htruthy⟩ h3
    · exact absurd ⟨trivial, hcnt, htruthy⟩ h3
    · exact absurd ⟨trivial, hcnt, htruthy⟩ h3
  have hnext : seq.get_next_order p.leg_dict p.leg_id
      "leg_hopping_count_sl" "leg_tobe_executed_on_sl"
      = ((some { tgt with leg_id := some tid }, tid),
         { all_order_dict := dictModify (dictModify seq.all_order_dict
             p.leg_id (fun d => d.decCounter "leg_hopping_count_sl")) tid
             (fun _ => { tgt with leg_id := some tid }) }) := by
    simp only [SequencerState.get_next_order,
      SequencerState.hopping_count_manager, hgetref, htid]
    rw [if_pos (show ("leg_hopping_count_sl" : String) ≠ "" by decide)]
    simp only [SequencerState.get_order, hg1]
  rw [hstep, hnext]
  refine ⟨rfl, ?_, ?_, rfl⟩
  · rw [dictGet_dictModify, if_neg (fun hh => hdist hh.symm),
      dictGet_dictModify, if_pos rfl]
    cases dictGet seq.all_order_dict p.leg_id with
    | none => rfl
    | some d =>
      simp [LegDict.decCounter]
  · rw [dictGet_dictModify, if_pos rfl, hg1]
    rfl

theorem C7_leg_hop_witness :
    hopClosed.leg_dict.rentry_sl_toggle = false ∧
    0 < hopClosed.leg_dict.leg_hopping_count_sl ∧
    dictGet hopSeq.all_order_dict "leg_2" = some hopLeg2 ∧
    (reentryStep hopSeq hopClosed true).2
      = some ⟨"leg_2", { hopLeg2 with leg_id := some "leg_2" }, ""⟩ := by
  refine ⟨rfl, by decide, rfl, ?_⟩
  exact (C7_leg_hop hopSeq hopClosed hopLeg2 "leg_2" "leg_2" rfl rfl
    (by decide) rfl (by decide) (by decide) (by decide) rfl).1

theorem decCounter_sl_of_ne (d : LegDict) (ht : String)
    (h : ht ≠ "total_sl_rentry") :
    (d.decCounter ht).total_sl_rentry = d.total_sl_rentry := by
  rw [LegDict.decCounter]
  split_ifs <;> first | rfl | exact absurd ‹ht = "total_sl_rentry"› h

theorem decCounter_tgt_of_ne (d : LegDict) (ht : String)
    (h : ht ≠ "total_tgt_rentry") :
    (d.decCounter ht).total_tgt_rentry = d.total_tgt_rentry := by
  rw [LegDict.decCounter]
  split_ifs <;> rfl

theorem slBudget_hopping_of_ne (seq : SequencerState) (legId ht lid : String)
    (h : ht ≠ "total_sl_rentry") :
    (seq.hopping_count_manager legId ht).slBudget lid = seq.slBudget lid := by
  rw [SequencerState.hopping_count_manager]
  split_ifs with hne
  · rw [SequencerState.slBudget, SequencerState.slBudget]
    simp only [dictGet_dictModify]
    split_ifs with hl
    · cases dictGet seq.all_order_dict lid with
      | none => rfl
      | some d => simp [decCounter_sl_of_ne d ht h]
    · rfl
  · rfl

theorem tgtBudget_hopping_of_ne (seq : SequencerState) (legId ht lid : String)
    (h : ht ≠ "total_tgt_rentry") :
    (seq.hopping_count_manager legId ht).tgtBudget lid = seq.tgtBudget lid := by
  rw [SequencerState.hopping_count_manager]
  split_ifs with hne
  · rw [SequencerState.tgtBudget, SequencerState.tgtBudget]
    simp only [dictGet_dictModify]
    split_ifs with hl
    · cases dictGet seq.all_order_dict lid with
      | none => rfl
      | some d => simp [decCounter_tgt_of_ne d ht h]
    · rfl
  · rfl

theorem slBudget_hopping_sl (seq : SequencerState) (legId lid : String) :
    (seq.hopping_count_manager legId "total_sl_rentry").slBudget lid
      = if lid = legId then (seq.slBudget lid).map (· - 1)
        else seq.slBudget lid := by
  rw [SequencerState.hopping_count_manager,
    if_pos (show ("total_sl_rentry" : String) ≠ "" by decide)]
  rw [SequencerState.slBudget, SequencerState.slBudget]
  simp only [dictGet_dictModify]
  split_ifs with hl
  · cases dictGet seq.all_order_dict lid with
    | none => rfl
    | some d => simp [LegDict.decCounter]
  · rfl

theorem tgtBudget_hopping_tgt (seq : SequencerState) (legId lid : String) :
    (seq.hopping_count_manager legId "total_tgt_rentry").tgtBudget lid
      = if lid = legId then (seq.tgtBudget lid).map (· - 1)
        else seq.tgtBudget lid := by
  rw [SequencerState.hopping_count_manager,
    if_pos (show ("total_tgt_rentry" : String) ≠ "" by decide)]
  rw [SequencerState.tgtBudget, SequencerState.tgtBudget]
  simp only [dictGet_dictModify]
  split_ifs with hl
  · cases dictGet seq.all_order_dict lid with
    | none => rfl
    | some d => simp [LegDict.decCounter]
  · rfl

theorem tgtBudget_hopping_sl (seq : SequencerState) (legId lid : String) :
    (seq.hopping_count_manager legId "total_sl_rentry").tgtBudget lid
      = seq.tgtBudget lid :=
  tgtBudget_hopping_of_ne seq legId "total_sl_rentry" lid (by decide)

theorem slBudget_hopping_tgt (seq : SequencerState) (legId lid : String) :
    (seq.hopping_count_manager legId "total_tgt_rentry").slBudget lid
      = seq.slBudget lid :=
  slBudget_hopping_of_ne seq legId "total_tgt_rentry" lid (by decide)

theorem slBudget_get_order (seq : SequencerState) (uid lid : String) :
    ((seq.get_order uid).2).slBudget lid = seq.slBudget lid := by
  rw [SequencerState.get_order]
  cases h : dictGet seq.all_order_dict uid with
  | none => rfl
  | some o =>
    rw [SequencerState.slBudget, SequencerState.slBudget]
    simp only [dictGet_dictModify]
    split_ifs with hl
    · rw [hl, h]
      rfl
    · rfl

theorem tgtBudget_get_order (seq : SequencerState) (uid lid : String) :
    ((seq.get_order uid).2).tgtBudget lid = seq.tgtBudget lid := by
  rw [SequencerState.get_order]
  cases h : dictGet seq.all_order_dict uid with
  | none => rfl
  | some o =>
    rw [SequencerState.tgtBudget, SequencerState.tgtBudget]
    simp only [dictGet_dictModify]
    split_ifs with hl
    · rw [hl, h]
      rfl
    · rfl

theorem slBudget_get_next_order (seq : SequencerState) (prev : LegDict)
    (uid ht ref lid : String) (h : ht ≠ "total_sl_rentry") :
    ((seq.get_next_order prev uid ht ref).2).slBudget lid
      = seq.slBudget lid :=
  (slBudget_get_order (seq.hopping_count_manager uid ht)
    (replaceDot (prev.getLegRef ref)) lid).trans
    (slBudget_hopping_of_ne seq uid ht lid h)

theorem tgtBudget_get_next_order (seq : SequencerState) (prev : LegDict)
    (uid ht ref lid : String) (h : ht ≠ "total_tgt_rentry") :
    ((seq.get_next_order prev uid ht ref).2).tgtBudget lid
      = seq.tgtBudget lid :=
  (tgtBudget_get_order (seq.hopping_count_manager uid ht)
    (replaceDot (prev.getLegRef ref)) lid).trans
    (tgtBudget_hopping_of_ne seq uid ht lid h)

/-- One re-entry step leaves every registry SL budget unchanged or
decremented by one. -/
theorem reentryStep_slBudget (seq : SequencerState) (closed : Position)
    (slTrig : Bool) (lid : String) :
    (reentryStep seq closed slTrig).1.slBudget lid = seq.slBudget lid ∨
    (reentryStep seq closed slTrig).1.slBudget lid
      = (seq.slBudget lid).map (· - 1) := by
  rw [reentryStep]
  split_ifs with h1 h2 h3 h4 h5
  · rw [slBudget_hopping_sl]
    split_ifs with hl
    · right; rfl
    · left; rfl
  · left; exact slBudget_hopping_tgt seq closed.leg_id lid
  · left
    exact slBudget_get_next_order seq closed.leg_dict closed.leg_id
      "leg_hopping_count_sl" "leg_tobe_executed_on_sl" lid (by decide)
  · left
    exact slBudget_get_next_order seq closed.leg_dict closed.leg_id
      "leg_hopping_count_tgt" "leg_tobe_executed_on_target" lid (by decide)
  · left
    exact slBudget_get_next_order seq closed.leg_dict closed.leg_id
      "leg_hopping_count_next_leg" "next_lazy_leg_to_be_executed" lid
      (by decide)
  · left; rfl

/-- One re-entry step leaves every registry target budget unchanged or
decremented by one. -/
theorem reentryStep_tgtBudget (seq : SequencerState) (closed : Position)
    (slTrig : Bool) (lid : String) :
    (reentryStep seq closed slTrig).1.tgtBudget lid = seq.tgtBudget lid ∨
    (reentryStep seq closed slTrig).1.tgtBudget lid
      = (seq.tgtBudget lid).map (· - 1) := by
  rw [reentryStep]
  split_ifs with h1 h2 h3 h4 h5
  · left; exact tgtBudget_hopping_sl seq closed.leg_id lid
  · rw [tgtBudget_hopping_tgt]
    split_ifs with hl
    · right; rfl
    · left; rfl
  · left
    exact tgtBudget_get_next_order seq closed.leg_dict closed.leg_id
      "leg_hopping_count_sl" "leg_tobe_executed_on_sl" lid (by decide)
  · left
    exact tgtBudget_get_next_order seq closed.leg_dict closed.leg_id
      "leg_hopping_count_tgt" "leg_tobe_executed_on_target" lid (by decide)
  · left
    exact tgtBudget_get_next_order seq closed.leg_dict closed.leg_id
      "leg_hopping_count_next_leg" "next_lazy_leg_to_be_executed" lid
      (by decide)
  · left; rfl

/-- The registry state after a sequence of re-entry decisions of one day
(one entry per closed position processed, with its `stop_loss_triggers`
flag). -/
def runReentry (seq : SequencerState) (events : List (Position × Bool)) :
    SequencerState :=
  events.foldl (fun s e => (reentryStep s e.1 e.2).1) seq

theorem runReentry_slBudget (seq : SequencerState)
    (events : List (Position × Bool)) (lid : String) (n' : ℤ)
    (h : (runReentry seq events).slBudget lid = some n') :
    ∃ n, seq.slBudget lid = some n ∧ n' ≤ n := by
  induction events generalizing seq with
  | nil => exact ⟨n', h, le_refl n'⟩
  | cons e tl ih =>
    obtain ⟨m, hm, hle⟩ := ih ((reentryStep seq e.1 e.2).1) h
    rcases reentryStep_slBudget seq e.1 e.2 lid with hcase | hcase
    · rw [hcase] at hm
      exact ⟨m, hm, hle⟩
    · rw [hcase] at hm
      cases hx : seq.slBudget lid with
      | none => rw [hx] at hm; simp at hm
      | some k =>
        rw [hx] at hm
        simp at hm
        exact ⟨k, rfl, by omega⟩

theorem runReentry_tgtBudget (seq : SequencerState)
    (events : List (Position × Bool)) (lid : String) (n' : ℤ)
    (h : (runReentry seq events).tgtBudget lid = some n') :
    ∃ n, seq.tgtBudget lid = some n ∧ n' ≤ n := by
  induction events generalizing seq with
  | nil => exact ⟨n', h, le_refl n'⟩
  | cons e tl ih =>
    obtain ⟨m, hm, hle⟩ := ih ((reentryStep seq e.1 e.2).1) h
    rcases reentryStep_tgtBudget seq e.1 e.2 lid with hcase | hcase
    · rw [hcase] at hm
      exact ⟨m, hm, hle⟩
    · rw [hcase] at hm
      cases hx : seq.tgtBudget lid with
      | none => rw [hx] at hm; simp at hm
      | some k =>
        rw [hx] at hm
        simp at hm
        exact ⟨k, rfl, by omega⟩

theorem reentryStep_slBudget_nonneg (seq : SequencerState) (closed : Position)
    (slTrig : Bool)
    (hsync : closed.leg_dict.total_sl_rentry = seq.slBudget closed.leg_id)
    (lid : String) (n : ℤ) (hn : seq.slBudget lid = some n) (hpos : 0 ≤ n)
    (n' : ℤ)
    (h' : (reentryStep seq closed slTrig).1.slBudget lid = some n') :
    0 ≤ n' := by
  rw [reentryStep] at h'
  split_ifs at h' with h1 h2 h3 h4 h5
  · rw [slBudget_hopping_sl] at h'
    split_ifs at h' with hl
    · simp only [Bool.and_eq_true] at h1
      have hopt := h1.2
      rw [hsync, ← hl, hn] at hopt
      rw [hn] at h'
      simp [optPos] at hopt
      simp at h'
      omega
    · rw [hn] at h'
      injection h' with hh
      omega
  · rw [slBudget_hopping_tgt, hn] at h'
    injection h' with hh
    omega
  · rw [slBudget_get_next_order seq closed.leg_dict closed.leg_id
        "leg_hopping_count_sl" "leg_tobe_executed_on_sl" lid (by decide),
      hn] at h'
    injection h' with hh
    omega
  · rw [slBudget_get_next_order seq closed.leg_dict closed.leg_id
        "leg_hopping_count_tgt" "leg_tobe_executed_on_target" lid (by decide),
      hn] at h'
    injection h' with hh
    omega
  · rw [slBudget_get_next_order seq closed.leg_dict closed.leg_id
        "leg_hopping_count_next_leg" "next_lazy_leg_to_be_executed" lid
        (by decide), hn] at h'
    injection h' with hh
    omega
  · rw [hn] at h'
    injection h' with hh
    omega

theorem reentryStep_tgtBudget_nonneg (seq : SequencerState) (closed : Position)
    (slTrig : Bool)
    (hsync : closed.leg_dict.total_tgt_rentry = seq.tgtBudget closed.leg_id)
    (lid : String) (n : ℤ) (hn : seq.tgtBudget lid = some n) (hpos : 0 ≤ n)
    (n' : ℤ)
    (h' : (reentryStep seq closed slTrig).1.tgtBudget lid = some n') :
    0 ≤ n' := by
  rw [reentryStep] at h'
  split_ifs at h' with h1 h2 h3 h4 h5
  · rw [tgtBudget_hopping_sl, hn] at h'
    injection h' with hh
    omega
  · rw [tgtBudget_hopping_tgt] at h'
    split_ifs at h' with hl
    · simp only [Bool.and_eq_true] at h2
      have hopt := h2.2
      rw [hsync, ← hl, hn] at hopt
      rw [hn] at h'
      simp [optPos] at hopt
      simp at h'
      omega
    · rw [hn] at h'
      injection h' with hh
      omega
  · rw [tgtBudget_get_next_order seq closed.leg_dict closed.leg_id
        "leg_hopping_count_sl" "leg_tobe_executed_on_sl" lid (by decide),
      hn] at h'
    injection h' with hh
    omega
  · rw [tgtBudget_get_next_order seq closed.leg_dict closed.leg_id
        "leg_hopping_count_tgt" "leg_tobe_executed_on_target" lid (by decide),
      hn] at h'
    injection h' with hh
    omega
  · rw [tgtBudget_get_next_order seq closed.leg_dict closed.leg_id
        "leg_hopping_count_next_leg" "next_lazy_leg_to_be_executed" lid
        (by decide), hn] at h'
    injection h' with hh
    omega
  · rw [hn] at h'
    injection h' with hh
    omega

/-- Scenario D leg: SL re-entry enabled with a budget of one. -/
def scenLeg : LegDict :=
  { unique_leg_id := some "leg_1", rentry_sl_toggle := true,
    total_sl_rentry := some 1 }

def scenSeq0 : SequencerState := { all_order_dict := [("leg_1", scenLeg)] }

/-- The first `leg_1` position, closed by stop loss. -/
def scenPos1 : Position :=
  { position_id := "leg_1_1", leg_id := "leg_1", unique_leg_id := "leg_1",
    trading_symbol := "T", instrument_type := "CE", strike := 0,
    entry_timestamp := 0, entry_price := 0, quantity := 0,
    position_type := "Sell", leg_dict := scenLeg, is_active := false,
    exit_reason := some "SL Triggered Exit for leg leg_1" }

def scenSeq1 : SequencerState := (reentryStep scenSeq0 scenPos1 true).1

/-- The re-entered `leg_1` position, whose `leg_dict` is the registry copy
taken at creation (after the first decrement), again closed by stop
loss. -/
def emptyLeg : LegDict := {}

def scenPos2 : Position :=
  { scenPos1 with
    position_id := "leg_1_2",
    leg_dict := (dictGet scenSeq1.all_order_dict "leg_1").getD emptyLeg }

/-- A second `leg_1` position concurrent with the first: its `leg_dict`
is the registry copy taken *before* the first decrement, so its captured
budget of 1 is stale.  Such a position arises when a leg hosts two open
positions at once (a hop submitting into a leg whose earlier position is
still open, or a duplicate submission). -/
def stalePos2 : Position := { scenPos1 with position_id := "leg_1_2" }

/-- C5 counterexample: the budget guard tests the closed position's
*captured* `leg_dict` while the decrement hits the shared registry, so
with two concurrent `leg_1` positions both captured at budget 1, the
second SL close passes the guard on its stale copy and drives the
registry count to −1 — and still submits a third entry.  The claimed
"never becomes negative" fails for concurrent positions on a leg. -/
theorem C5_counterexample :
    scenSeq0.slBudget "leg_1" = some 1 ∧
    (runReentry scenSeq0 [(scenPos1, true), (stalePos2, true)]).slBudget
      "leg_1" = some (-1) ∧
    ((reentryStep scenSeq1 stalePos2 true).2).isSome = true := by
  refine ⟨by decide, by decide, by decide⟩

/-- C5 (amended): for every leg and exit type the remaining re-entry
budget recorded in the shared order registry is non-increasing across any
day's sequence of re-entry decisions and, whenever the closed position's
captured budget agrees with the registry (as it does when positions on a
leg are sequential — but *not* for concurrent positions, see the
counterexample), it never becomes negative; and in Scenario D a leg with
`total_sl_rentry = 1` suffering two sequential SL exits triggers exactly
one re-entry submission — the budget is 0 after the first and the second
exit submits nothing. -/
theorem C5_reentry_budget_monotone :
    (∀ (seq : SequencerState) (events : List (Position × Bool))
      (lid : String) (n' : ℤ),
      (runReentry seq events).slBudget lid = some n' →
      ∃ n, seq.slBudget lid = some n ∧ n' ≤ n) ∧
    (∀ (seq : SequencerState) (events : List (Position × Bool))
      (lid : String) (n' : ℤ),
      (runReentry seq events).tgtBudget lid = some n' →
      ∃ n, seq.tgtBudget lid = some n ∧ n' ≤ n) ∧
    (∀ (seq : SequencerState) (closed : Position) (slTrig : Bool),
      closed.leg_dict.total_sl_rentry = seq.slBudget closed.leg_id →
      ∀ (lid : String) (n : ℤ), seq.slBudget lid = some n → 0 ≤ n →
      ∀ n', (reentryStep seq closed slTrig).1.slBudget lid = some n' →
        0 ≤ n') ∧
    (∀ (seq : SequencerState) (closed : Position) (slTrig : Bool),
      closed.leg_dict.total_tgt_rentry = seq.tgtBudget closed.leg_id →
      ∀ (lid : String) (n : ℤ), seq.tgtBudget lid = some n → 0 ≤ n →
      ∀ n', (reentryStep seq closed slTrig).1.tgtBudget lid = some n' →
        0 ≤ n') ∧
    ((reentryStep scenSeq0 scenPos1 true).2).map (fun s => s.execution_type)
      = some "IMMEDIATE" ∧
    scenSeq1.slBudget "leg_1" = some 0 ∧
    (reentryStep scenSeq1 scenPos2 true).2 = none := by
  refine ⟨runReentry_slBudget, runReentry_tgtBudget,
    reentryStep_slBudget_nonneg, reentryStep_tgtBudget_nonneg,
    by decide, by decide, by decide⟩

theorem C5_reentry_budget_monotone_witness :
    (runReentry scenSeq0 [(scenPos1, true)]).slBudget "leg_1" = some 0 ∧
    (∃ n, scenSeq0.slBudget "leg_1" = some n ∧ (0 : ℤ) ≤ n) ∧
    scenPos1.leg_dict.total_sl_rentry = scenSeq0.slBudget scenPos1.leg_id ∧
    (0 : ℤ) ≤ 0 := by
  refine ⟨by decide, ?_, by decide, ?_⟩
  · exact (C5_reentry_budget_monotone).1 scenSeq0 [(scenPos1, true)]
      "leg_1" 0 (by decide)
  · exact (C5_reentry_budget_monotone).2.2.1 scenSeq0 scenPos1 true
      (by decide) "leg_1" 1 (by decide) (by decide) 0 (by decide)

theorem find?_filter_ne (l : List Position) (rid qid : String) (h : rid ≠ qid) :
    (l.filter (fun x => x.position_id ≠ rid)).find?
      (fun x => x.position_id = qid)
      = l.find? (fun x => x.position_id = qid) := by
  induction l with
  | nil => rfl
  | cons e tl ih =>
    rw [List.filter_cons]
    by_cases he : e.position_id = rid
    · have hq : ¬ e.position_id = qid := by rw [he]; exact h
      rw [if_neg (by simp [he]), ih]
      simp only [List.find?_cons]
      rw [show decide (e.position_id = qid) = false by simp [hq]]
    · by_cases hq : e.position_id = qid
      · rw [if_pos (by simp [he])]
        simp only [List.find?_cons]
        rw [show decide (e.position_id = qid) = true by simp [hq]]
      · rw [if_pos (by simp [he])]
        simp only [List.find?_cons]
        rw [show decide (e.position_id = qid) = false by simp [hq]]
        exact ih

theorem close_find?_other (m : PNLManager) (pid qid : String) (t : ℕ)
    (ep : ℚ) (r : String) (h : pid ≠ qid) :
    ((m.close_position pid t ep r).2).active_positions.find?
      (fun x => x.position_id = qid)
      = m.active_positions.find? (fun x => x.position_id = qid) := by
  rw [PNLManager.close_position]
  cases hf : m.active_positions.find? (fun p => p.position_id = pid) with
  | none => rfl
  | some q =>
    simp only [PNLManager.record_order, PNLManager.update_total_unrealized_pnl]
    exact find?_filter_ne _ pid qid h

theorem close_closed_eq (m : PNLManager) (pid : String) (t : ℕ) (ep : ℚ)
    (r : String) (q : Position)
    (hf : m.active_positions.find? (fun p => p.position_id = pid) = some q) :
    ((m.close_position pid t ep r).2).closed_positions
      = m.closed_positions ++ [q.close_position t ep r] := by
  rw [PNLManager.close_position, hf]
  rfl

theorem close_closed_mem (m : PNLManager) (pid : String) (t : ℕ) (ep : ℚ)
    (r : String) (q : Position) (hq : q ∈ m.closed_positions) :
    q ∈ ((m.close_position pid t ep r).2).closed_positions := by
  rw [PNLManager.close_position]
  cases hf : m.active_positions.find? (fun p => p.position_id = pid) with
  | none => exact hq
  | some x =>
    simp only [PNLManager.record_order, PNLManager.update_total_unrealized_pnl]
    exact List.mem_append_left _ hq

theorem slStep_closed_mem (t : ℕ) (acc : PNLManager) (p q : Position)
    (hq : q ∈ acc.closed_positions) :
    q ∈ (slStep t acc p).closed_positions := by
  rw [slStep]
  split_ifs
  · exact close_closed_mem _ _ _ _ _ _ hq
  · exact hq

theorem targetStep_closed_mem (t : ℕ) (acc : PNLManager) (p q : Position)
    (hq : q ∈ acc.closed_positions) :
    q ∈ (targetStep t acc p).closed_positions := by
  rw [targetStep]
  split_ifs
  · exact close_closed_mem _ _ _ _ _ _ hq
  · exact hq

theorem foldl_slStep_closed_mem (t : ℕ) (l : List Position)
    (acc : PNLManager) (q : Position) (hq : q ∈ acc.closed_positions) :
    q ∈ (l.foldl (slStep t) acc).closed_positions := by
  induction l generalizing acc with
  | nil => exact hq
  | cons e tl ih => exact ih _ (slStep_closed_mem t acc e q hq)

theorem foldl_targetStep_closed_mem (t : ℕ) (l : List Position)
    (acc : PNLManager) (q : Position) (hq : q ∈ acc.closed_positions) :
    q ∈ (l.foldl (targetStep t) acc).closed_positions := by
  induction l generalizing acc with
  | nil => exact hq
  | cons e tl ih => exact ih _ (targetStep_closed_mem t acc e q hq)

theorem slStep_find?_other (t : ℕ) (acc : PNLManager) (p : Position)
    (qid : String) (h : p.position_id ≠ qid) :
    (slStep t acc p).active_positions.find? (fun x => x.position_id = qid)
      = acc.active_positions.find? (fun x => x.position_id = qid) := by
  rw [slStep]
  split_ifs
  · exact close_find?_other acc p.position_id qid t _ _ h
  · rfl

theorem foldl_slStep_find?_other (t : ℕ) (l : List Position)
    (acc : PNLManager) (qid : String)
    (h : ∀ r ∈ l, r.position_id ≠ qid) :
    (l.foldl (slStep t) acc).active_positions.find?
      (fun x => x.position_id = qid)
      = acc.active_positions.find? (fun x => x.position_id = qid) := by
  induction l generalizing acc with
  | nil => rfl
  | cons e tl ih =>
    rw [List.foldl_cons, ih _ (fun r hr => h r (List.mem_cons_of_mem e hr))]
    exact slStep_find?_other t acc e qid (h e (List.mem_cons_self e tl))

theorem slStep_find?_none (t : ℕ) (acc : PNLManager) (p : Position)
    (qid : String)
    (h : acc.active_positions.find? (fun x => x.position_id = qid) = none) :
    (slStep t acc p).active_positions.find? (fun x => x.position_id = qid)
      = none := by
  by_cases hp : p.position_id = qid
  · rw [slStep]
    split_ifs
    · rw [← hp]
      exact find?_after_close acc p.position_id t _ _
    · exact h
  · rw [slStep_find?_other t acc p qid hp]
    exact h

theorem targetStep_find?_none (t : ℕ) (acc : PNLManager) (p : Position)
    (qid : String)
    (h : acc.active_positions.find? (fun x => x.position_id = qid) = none) :
    (targetStep t acc p).active_positions.find? (fun x => x.position_id = qid)
      = none := by
  by_cases hp : p.position_id = qid
  · rw [targetStep]
    split_ifs
    · rw [← hp]
      exact find?_after_close acc p.position_id t _ _
    · exact h
  · rw [targetStep]
    split_ifs
    · exact (close_find?_other acc p.position_id qid t _ _ hp).trans h
    · exact h

theorem foldl_slStep_find?_none (t : ℕ) (l : List Position)
    (acc : PNLManager) (qid : String)
    (h : acc.active_positions.find? (fun x => x.position_id = qid) = none) :
    (l.foldl (slStep t) acc).active_positions.find?
      (fun x => x.position_id = qid) = none := by
  induction l generalizing acc with
  | nil => exact h
  | cons e tl ih => exact ih _ (slStep_find?_none t acc e qid h)

theorem foldl_targetStep_find?_none (t : ℕ) (l : List Position)
    (acc : PNLManager) (qid : String)
    (h : acc.active_positions.find? (fun x => x.position_id = qid) = none) :
    (l.foldl (targetStep t) acc).active_positions.find?
      (fun x => x.position_id = qid) = none := by
  induction l generalizing acc with
  | nil => exact h
  | cons e tl ih => exact ih _ (targetStep_find?_none t acc e qid h)

theorem find?_append_cons (l1 l2 : List Position) (p : Position)
    (h : ∀ r ∈ l1, r.position_id ≠ p.position_id) :
    (l1 ++ p :: l2).find? (fun x => x.position_id = p.position_id)
      = some p := by
  induction l1 with
  | nil =>
    simp [List.find?_cons]
  | cons e tl ih =>
    have he := h e (List.mem_cons_self e tl)
    simp only [List.cons_append, List.find?_cons]
    rw [show decide (e.position_id = p.position_id) = false by simp [he]]
    exact ih (fun r hr => h r (List.mem_cons_of_mem e hr))

theorem pair_if_snd_of_fst (c : Prop) [Decidable c] (r : String)
    (h : (if c then ((true : Bool), r) else ((false : Bool), "")).1 = true) :
    (if c then ((true : Bool), r) else ((false : Bool), "")).2 = r := by
  by_cases hc : c
  · rw [if_pos hc]
  · rw [if_neg hc] at h
    exact absurd h (by simp)

theorem StopLossExit_check_reason (p : Position)
    (h : (StopLossExit.check p).1 = true) :
    (StopLossExit.check p).2
      = "SL Triggered Exit for leg " ++ p.leg_dict.unique_leg_id.getD "" := by
  rw [StopLossExit.check] at h ⊢
  split_ifs at h ⊢
  all_goals try simp at h
  all_goals exact pair_if_snd_of_fst _ _ h

/-- C4: in the day driver's per-timestamp closing phase, a position whose
stop-loss condition and target condition are simultaneously true is
closed by the stop-loss exit (exit price = stored stop-loss level, exit
reason = the stop-loss reason): the stop-loss scan runs first and removes
the position from the active set before the target scan can see it. -/
theorem C4_stoploss_wins (m : PNLManager) (t : ℕ) (p : Position) (sl : ℚ)
    (hnd : (m.active_positions.map (fun x => x.position_id)).Nodup)
    (hmem : p ∈ m.active_positions)
    (hslv : p.stop_loss = some sl)
    (hsl : (StopLossExit.check p).1 = true)
    (htg : (TargetProfitExit.check p).1 = true) :
    p.close_position t sl (StopLossExit.check p).2
      ∈ (closingPhase m t).closed_positions ∧
    (closingPhase m t).active_positions.find?
      (fun x => x.position_id = p.position_id) = none ∧
    (p.close_position t sl (StopLossExit.check p).2).exit_price = some sl ∧
    (StopLossExit.check p).2
      = "SL Triggered Exit for leg " ++ p.leg_dict.unique_leg_id.getD "" := by
  obtain ⟨l1, l2, hsplit⟩ := List.append_of_mem hmem
  have hget : p.stop_loss.getD 0 = sl := by rw [hslv]; rfl
  have hnd' := hnd
  rw [hsplit, List.map_append, List.map_cons, List.nodup_append] at hnd'
  obtain ⟨hnd1, hnd2, hdisj⟩ := hnd'
  have h1 : ∀ r ∈ l1, r.position_id ≠ p.position_id := by
    intro r hr hcon
    exact hdisj (List.mem_map_of_mem _ hr)
      (by rw [hcon]; exact List.mem_cons_self _ _)
  have h2 : ∀ r ∈ l2, r.position_id ≠ p.position_id := by
    intro r hr hcon
    rw [List.nodup_cons] at hnd2
    exact hnd2.1 (by rw [← hcon]; exact List.mem_map_of_mem _ hr)
  have hscan : slScan m t
      = l2.foldl (slStep t) (slStep t (l1.foldl (slStep t) m) p) := by
    rw [slScan, hsplit, List.foldl_append, List.foldl_cons]
  have hacc1 : (l1.foldl (slStep t) m).active_positions.find?
      (fun x => x.position_id = p.position_id) = some p := by
    rw [foldl_slStep_find?_other t l1 m _ h1, hsplit]
    exact find?_append_cons l1 l2 p h1
  have hstep : slStep t (l1.foldl (slStep t) m) p
      = ((l1.foldl (slStep t) m).close_position p.position_id t
          (p.stop_loss.getD 0) (StopLossExit.check p).2).2 := by
    simp [slStep, hsl]
  have hclosed_mid : p.close_position t (p.stop_loss.getD 0)
      (StopLossExit.check p).2
      ∈ (slStep t (l1.foldl (slStep t) m) p).closed_positions := by
    rw [hstep, close_closed_eq _ _ _ _ _ p hacc1]
    exact List.mem_append_right _ (List.mem_singleton.mpr rfl)
  have hnone_mid : (slStep t (l1.foldl (slStep t) m) p).active_positions.find?
      (fun x => x.position_id = p.position_id)
      = none := by
    rw [hstep]
    exact find?_after_close _ _ _ _ _
  have hclosed_sl : p.close_position t (p.stop_loss.getD 0)
      (StopLossExit.check p).2 ∈ (slScan m t).closed_positions := by
    rw [hscan]
    exact foldl_slStep_closed_mem t l2 _ _ hclosed_mid
  have hnone_sl : (slScan m t).active_positions.find?
      (fun x => x.position_id = p.position_id) = none := by
    rw [hscan]
    exact foldl_slStep_find?_none t l2 _ _ hnone_mid
  have hclosed_fin : p.close_position t (p.stop_loss.getD 0)
      (StopLossExit.check p).2 ∈ (closingPhase m t).closed_positions := by
    rw [closingPhase, targetScan]
    exact foldl_targetStep_closed_mem t _ _ _ hclosed_sl
  have hnone_fin : (closingPhase m t).active_positions.find?
      (fun x => x.position_id = p.position_id) = none := by
    rw [closingPhase, targetScan]
    exact foldl_targetStep_find?_none t _ _ _ hnone_sl
  rw [hget] at hclosed_fin
  exact ⟨hclosed_fin, hnone_fin, rfl, StopLossExit_check_reason p hsl⟩

/-- The leg and position of the C4 witness: a Sell position whose minute
bar (High 120, Low 80) breaches both its stop loss (110) and its target
(90) at once. -/
def c4Leg : LegDict :=
  { unique_leg_id := some "leg_1", stoploss_toggle := true,
    stoploss_type := some "Points", stoploss_value := 10,
    target_toggle := true, target_value := 1 }

def c4Pos : Position :=
  { position_id := "leg_1_1", leg_id := "leg_1", unique_leg_id := "leg_1",
    trading_symbol := "T", instrument_type := "CE", strike := 0,
    entry_timestamp := 0, entry_price := 100, quantity := 75,
    position_type := "Sell", leg_dict := c4Leg, current_ltp := 100,
    stop_loss := some 110, target_price := some 90,
    OHLCV_data := ⟨100, 120, 80, 100⟩ }

def c4Mgr : PNLManager := { active_positions := [c4Pos] }

theorem C4_stoploss_wins_witness :
    (StopLossExit.check c4Pos).1 = true ∧
    (TargetProfitExit.check c4Pos).1 = true ∧
    c4Pos.stop_loss = some 110 ∧
    c4Pos.close_position 600 110 (StopLossExit.check c4Pos).2
      ∈ (closingPhase c4Mgr 600).closed_positions := by
  refine ⟨by decide, by decide, rfl, ?_⟩
  exact (C4_stoploss_wins c4Mgr 600 c4Pos 110 (by decide) (by decide) rfl
    (by decide) (by decide)).1

/-!
C6 — range-breakout execution.
-/

/-- The code's breakout level is the spec's max-High / min-Low level over
the *inclusive* window, rounded to two decimals. -/
theorem calc_eq_specIncl (rows : List RBRow) (d : RBData) :
    RangeBreakoutStrategy.calculate_range rows d
      = (specRangeLevelIncl rows d).map round2 := by
  rw [RangeBreakoutStrategy.calculate_range, specRangeLevelIncl]
  split_ifs <;> simp

/-- The breakout check never touches the strategy data: once cached, the
level is only read, never recomputed. -/
theorem checkBreakout_snd (rows : List RBRow) (d : RBData) (now : ℕ) :
    (RangeBreakoutStrategy.checkBreakout rows d now).2 = d := by
  rw [RangeBreakoutStrategy.checkBreakout]
  rcases hb : d.range_break_price with _ | rp
  · rfl
  · rcases hf : rows.find? (fun r => r.ts = now) with _ | r <;>
      simp only [hf]

/-- With a cached level, the order fires exactly when the current row
exists and its configured compare field is strictly beyond the level in
the configured direction. -/
theorem checkBreakout_fires (rows : List RBRow) (d : RBData) (now : ℕ)
    (rp : ℚ) (hd : d.range_break_price = some rp) :
    ((RangeBreakoutStrategy.checkBreakout rows d now).1 = true ↔
      ∃ r, rows.find? (fun x => x.ts = now) = some r ∧
        (if d.breakout_direction = "ABOVE" then rp < r.row.get d.compare_field
         else r.row.get d.compare_field < rp)) := by
  rw [RangeBreakoutStrategy.checkBreakout, hd]
  rcases hf : rows.find? (fun r => r.ts = now) with _ | r
  · simp [hf]
  · simp only [hf]
    constructor
    · intro h
      refine ⟨r, rfl, ?_⟩
      split_ifs at h ⊢ with hdir
      · exact of_decide_eq_true h
      · exact of_decide_eq_true h
    · rintro ⟨r', hr', hcmp⟩
      obtain rfl : r = r' := by injection hr'
      split_ifs at hcmp ⊢ with hdir
      · exact decide_eq_true hcmp
      · exact decide_eq_true hcmp

/-- The data of the C6 counterexample: a ticker whose High rises 50, 55,
60 through the range window 0–10, with 60 printed exactly at the
threshold minute 10, and a Close of 56 printed at minute 11. -/
def c6Rows : List RBRow :=
  [⟨0, ⟨50, 50, 50, 50⟩⟩, ⟨5, ⟨55, 55, 55, 55⟩⟩, ⟨10, ⟨60, 60, 60, 60⟩⟩,
   ⟨11, ⟨56, 56, 56, 56⟩⟩]

def c6Data : RBData :=
  { range_start := 0, range_end := 10, breakout_of := "High",
    breakout_direction := "ABOVE", compare_field := "Close" }

/-- C6 counterexample: the range window *includes* the threshold minute.
The code caches max High = 60 (the bar printed at the threshold itself),
while the claimed exclusive window `[0, 10)` gives 55; at minute 11 the
Close of 56 is beyond the claimed level but the code does not fire. -/
theorem C6_counterexample :
    RangeBreakoutStrategy.calculate_range c6Rows c6Data = some 60 ∧
    specRangeLevel c6Rows c6Data = some 55 ∧
    (RangeBreakoutStrategy.can_execute c6Rows c6Data 11).1 = false ∧
    (55 : ℚ) < ((c6Rows.find? (fun r => r.ts = 11)).map
        (fun r => r.row.get c6Data.compare_field)).getD 0 := by
  have hr : round2 (60 : ℚ) = 60 := by simpa using round2_int 60
  have hcalc : RangeBreakoutStrategy.calculate_range c6Rows c6Data
      = some 60 := by
    rw [show RangeBreakoutStrategy.calculate_range c6Rows c6Data
        = some (round2 60) from rfl, hr]
  refine ⟨hcalc, by decide, ?_, by decide⟩
  rw [RangeBreakoutStrategy.can_execute]
  simp only [hcalc]
  norm_num [c6Data, RangeBreakoutStrategy.checkBreakout, c6Rows, OHLC.get,
    List.find?]

/-- C6 (amended): with the range not yet calculated, every poll up to and
*including* the threshold minute returns not-yet-executable; on the first
poll strictly after the threshold the level is computed — max High (resp.
min Low) over the window from `range_start` to `range_end` with *both
endpoints included*, rounded to two decimals — cached, and the breakout
check runs immediately; once calculated the cached data is never modified
again, and the order fires exactly when the current row's configured
compare field is strictly beyond the cached level in the configured
direction. -/
theorem C6_range_breakout (rows : List RBRow) (d : RBData) (now : ℕ) (rp : ℚ)
    (hnc : d.range_calculated = false) :
    (now ≤ d.range_end →
      RangeBreakoutStrategy.can_execute rows d now = (false, d)) ∧
    RangeBreakoutStrategy.calculate_range rows d
      = (specRangeLevelIncl rows d).map round2 ∧
    (d.range_end < now →
      RangeBreakoutStrategy.calculate_range rows d = some rp →
      RangeBreakoutStrategy.can_execute rows d now
        = RangeBreakoutStrategy.checkBreakout rows
            { d with range_break_price := some rp,
                     range_calculated := true } now) ∧
    (∀ e : RBData, e.range_calculated = true →
      RangeBreakoutStrategy.can_execute rows e now
        = RangeBreakoutStrategy.checkBreakout rows e now) ∧
    (∀ e : RBData, (RangeBreakoutStrategy.checkBreakout rows e now).2 = e) ∧
    (∀ e : RBData, e.range_break_price = some rp →
      ((RangeBreakoutStrategy.checkBreakout rows e now).1 = true ↔
        ∃ r, rows.find? (fun x => x.ts = now) = some r ∧
          (if e.breakout_direction = "ABOVE" then
            rp < r.row.get e.compare_field
           else r.row.get e.compare_field < rp))) := by
  refine ⟨?_, calc_eq_specIncl rows d, ?_, ?_, ?_, ?_⟩
  · intro h
    rw [RangeBreakoutStrategy.can_execute, hnc]
    simp [Nat.not_lt.mpr h]
  · intro h1 h2
    rw [RangeBreakoutStrategy.can_execute, hnc]
    simp [h1, h2]
  · intro e he
    rw [RangeBreakoutStrategy.can_execute, he]
    simp
  · exact fun e => checkBreakout_snd rows e now
  · exact fun e he => checkBreakout_fires rows e now rp he

theorem C6_range_breakout_witness :
    c6Data.range_calculated = false ∧ (5 : ℕ) ≤ c6Data.range_end ∧
    RangeBreakoutStrategy.can_execute c6Rows c6Data 5 = (false, c6Data) :=
  ⟨rfl, by decide, (C6_range_breakout c6Rows c6Data 5 60 rfl).1 (by decide)⟩
